import Mathlib

/-!
Verification of the Hive repository excerpt (AWS PrivateLink endpoint-VPC
removal and disable commands, PowerVS deprovision validation, PowerVS
machine-pool actuator, Alibaba zone query, managed-domains file reader).

The cloud and Kubernetes APIs are modelled as oracles (record fields
returning `Except` values); every command is embedded as a function that
returns the list of API events it performed together with its outcome
(`Except.error msg` models a `log.Fatal` that terminates the process with
message `msg`).  AWS filter evaluation (route-table and peering-connection
describe filters) is modelled against a per-region world list, following
the documented EC2 filter semantics (`*inner*` name globs match by
substring; value lists match by membership).
-/

namespace Hive

/-! ## Data model (from `apis/hive/v1` as used by the commands) -/

/-- An endpoint/associated VPC reference: `hivev1.AWSPrivateLinkVPC`. -/
structure AWSPrivateLinkVPC where
  vpcId : String
  region : String
deriving DecidableEq

/-- `hivev1.AWSAssociatedVPC` (the command only uses its embedded VPC). -/
structure AWSAssociatedVPC where
  awsPrivateLinkVPC : AWSPrivateLinkVPC
deriving DecidableEq

/-- A subnet of an endpoint VPC inventory entry. -/
structure AWSPrivateLinkSubnet where
  subnetID : String
  availabilityZone : String
deriving DecidableEq

/-- One entry of `HiveConfig.spec.awsPrivateLink.endpointVPCInventory`. -/
structure AWSPrivateLinkInventory where
  awsPrivateLinkVPC : AWSPrivateLinkVPC
  subnets : List AWSPrivateLinkSubnet
deriving DecidableEq

/-- `HiveConfig.spec.awsPrivateLink` (the fields the commands read). -/
structure AWSPrivateLinkConfig where
  associatedVPCs : List AWSAssociatedVPC
  endpointVPCInventory : List AWSPrivateLinkInventory
deriving DecidableEq

/-- `HiveConfig` restricted to the field the commands read and write:
`spec.awsPrivateLink`, `none` modelling the nil pointer. -/
structure HiveConfig where
  awsPrivateLink : Option AWSPrivateLinkConfig
deriving DecidableEq

/-! ## AWS errors and EC2 filters -/

/-- An error returned by an AWS call: either an `awserr.Error` carrying a
code, or a plain error (the type assertion `err.(awserr.Error)` fails). -/
inductive AwsErr where
  | aws (code : String) (msg : String)
  | generic (msg : String)
deriving DecidableEq

/-- `aerr, ok := err.(awserr.Error); ok && aerr.Code() == code`. -/
def AwsErr.isCode : AwsErr → String → Bool
  | .aws c _, code => c = code
  | .generic _, _ => false

/-- An `ec2.Filter`: a name and a list of values. -/
structure EC2Filter where
  name : String
  values : List String
deriving DecidableEq

/-- A route table as far as the command observes it: its id, its VPC, its
`Name` tag and the subnets associated with it. -/
structure RouteTable where
  routeTableId : String
  vpcId : String
  nameTag : String
  subnetAssociations : List String
deriving DecidableEq

/-- A VPC peering connection as far as the command observes it. -/
structure VpcPeeringConnection where
  vpcPeeringConnectionId : String
  requesterVpcId : String
  accepterVpcId : String
  statusCode : String
deriving DecidableEq

/-- `pat` is a leading run of `s`. -/
def leadsWith : List Char → List Char → Bool
  | [], _ => true
  | _ :: _, [] => false
  | a :: as, b :: bs => a = b && leadsWith as bs

/-- `pat` occurs contiguously somewhere in `s`. -/
def hasSubList (pat : List Char) : List Char → Bool
  | [] => pat.isEmpty
  | c :: rest => leadsWith pat (c :: rest) || hasSubList pat rest

/-- `sub` is a substring of `s`. -/
def containsSub (s sub : String) : Bool :=
  hasSubList sub.data s.data

/-- EC2 name-filter glob evaluation for the patterns the code uses: the
one glob the command passes, `*private*`, matches by substring; any other
value matches literally. -/
def matchesNameGlob (pat s : String) : Bool :=
  if pat = "*private*" then containsSub s "private"
  else pat = s

/-- Evaluation of one describe-route-tables filter against a route table,
per the EC2 filter names the command uses. -/
def routeTableMatchesFilter (f : EC2Filter) (rt : RouteTable) : Bool :=
  if f.name = "vpc-id" then f.values.contains rt.vpcId
  else if f.name = "tag:Name" then f.values.any (fun pat => matchesNameGlob pat rt.nameTag)
  else if f.name = "association.subnet-id" then rt.subnetAssociations.any f.values.contains
  else false

/-- Evaluation of one describe-vpc-peering-connections filter. -/
def peeringMatchesFilter (f : EC2Filter) (p : VpcPeeringConnection) : Bool :=
  if f.name = "requester-vpc-info.vpc-id" then f.values.contains p.requesterVpcId
  else if f.name = "accepter-vpc-info.vpc-id" then f.values.contains p.accepterVpcId
  else if f.name = "status-code" then f.values.contains p.statusCode
  else false

/-! ## API events and oracle environments -/

/-- One cloud / Kubernetes API interaction performed by a command.  The
first `String` argument of the AWS events is the region whose client was
used (`awsClientsByRegion`). -/
inductive Event where
  | getHiveConfig
  | getDefaultSG (region vpcId : String)
  | getCidr (region vpcId : String)
  | getWorkerSG (region vpcId : String)
  | describePeering (region : String) (filters : List EC2Filter)
  | deletePeering (region pcxId : String)
  | waitPeeringDeleted (region pcxId : String)
  | describeRouteTables (region : String) (filters : List EC2Filter)
  | deleteRoute (region routeTableId cidr : String)
  | revokeIngressFromSG (region sgId peerSgId : String)
  | revokeIngressFromCIDR (region sgId cidr : String)
  | listHubAcctSecrets
  | deleteSecret (name : String)
  | updateHiveConfig (cfg : HiveConfig)
deriving DecidableEq

/-- Oracles for the AWS calls the remove command performs.  `cidrOf`,
`defaultSGOf`, `workerSGOf` abstract the `awsutils` helpers
(`GetCIDRFromVpcId`, `GetDefaultSGOfVpc`, `GetWorkerSGFromVpcId`), and
`revokeIngressFromSG` / `revokeIngressFromCIDR` abstract
`RevokeAllIngressFromSG` / `RevokeAllIngressFromCIDR`; these helpers are
callers' dependencies not shown in the excerpt, so they are oracles.
`peeringConnections` and `routeTables` give the per-region world that the
EC2 describe calls filter. -/
structure AwsEnv where
  cidrOf : String → String → Except AwsErr String
  defaultSGOf : String → String → Except AwsErr String
  workerSGOf : String → String → Except AwsErr String
  peeringConnections : String → Except AwsErr (List VpcPeeringConnection)
  deletePeering : String → String → Except AwsErr Unit
  waitPeeringDeleted : String → String → Except AwsErr Unit
  routeTables : String → Except AwsErr (List RouteTable)
  deleteRoute : String → String → String → Except AwsErr Unit
  revokeIngressFromSG : String → String → String → Except AwsErr Unit
  revokeIngressFromCIDR : String → String → String → Except AwsErr Unit

/-- Oracles for the Kubernetes client calls of the two commands. -/
structure KubeEnv where
  getHiveConfig : Except String HiveConfig
  listHubAcctSecrets : Except String (List String)
  deleteSecret : String → Except String Unit
  updateHiveConfig : HiveConfig → Except String Unit

/-! ## The step monad: events performed plus outcome

`Except.error msg` models `log.Fatal(msg)`: the process terminates at once
and the remaining steps are not performed. -/

/-- A command step: the API events it performed and its outcome. -/
abbrev Step (α : Type) : Type := List Event × Except String α

instance : Monad Step where
  pure a := ([], Except.ok a)
  bind s f :=
    match s with
    | (evs, Except.error m) => (evs, Except.error m)
    | (evs, Except.ok a) => (evs ++ (f a).1, (f a).2)

@[simp] theorem step_bind_error {α β : Type} (evs : List Event) (m : String) (f : α → Step β) :
    @Bind.bind Step _ α β (evs, Except.error m) f = (evs, Except.error m) := rfl

@[simp] theorem step_bind_ok {α β : Type} (evs : List Event) (a : α) (f : α → Step β) :
    @Bind.bind Step _ α β (evs, Except.ok a) f = (evs ++ (f a).1, (f a).2) := rfl

@[simp] theorem step_pure {α : Type} (a : α) :
    (pure a : Step α) = (([], Except.ok a) : Step α) := rfl

/-- Perform one API call; on any error terminate with the fatal message. -/
def callFatal {α : Type} (e : Event) (r : Except AwsErr α) (fatalMsg : String) : Step α :=
  match r with
  | Except.ok a => ([e], Except.ok a)
  | Except.error _ => ([e], Except.error fatalMsg)

/-- Perform one API call; tolerate an `awserr.Error` whose code is
`code` (logged as a warning), terminate with `fatalMsg` otherwise. -/
def callTolerate (e : Event) (r : Except AwsErr Unit) (code fatalMsg : String) : Step Unit :=
  match r with
  | Except.ok _ => ([e], Except.ok ())
  | Except.error err =>
    if err.isCode code then ([e], Except.ok ()) else ([e], Except.error fatalMsg)

/-- `r` is a success or an `awserr.Error` with the tolerated code. -/
def tolerableB (r : Except AwsErr Unit) (code : String) : Bool :=
  match r with
  | Except.ok _ => true
  | Except.error err => err.isCode code

/-! ## `deleteVpcPeeringConnection` -/

/-- The filters `deleteVpcPeeringConnection` passes to
`DescribeVpcPeeringConnections`. -/
def peeringFilters (v1 v2 : String) : List EC2Filter :=
  [⟨"requester-vpc-info.vpc-id", [v1, v2]⟩,
   ⟨"accepter-vpc-info.vpc-id", [v1, v2]⟩,
   ⟨"status-code", ["active"]⟩]

/-- Embedding of `deleteVpcPeeringConnection`: describe the active peering
connections between the two VPCs; if none, warn and return nil; otherwise
delete the first one and wait until its deletion completes.  Errors are
returned to the caller. -/
def deleteVpcPeeringConnection (env : AwsEnv) (region v1 v2 : String) :
    List Event × Except AwsErr Unit :=
  let filters := peeringFilters v1 v2
  match env.peeringConnections region with
  | Except.error e => ([Event.describePeering region filters], Except.error e)
  | Except.ok world =>
    match world.filter (fun p => filters.all (fun f => peeringMatchesFilter f p)) with
    | [] => ([Event.describePeering region filters], Except.ok ())
    | pcx :: _ =>
      match env.deletePeering region pcx.vpcPeeringConnectionId with
      | Except.error e =>
        ([Event.describePeering region filters,
          Event.deletePeering region pcx.vpcPeeringConnectionId], Except.error e)
      | Except.ok _ =>
        match env.waitPeeringDeleted region pcx.vpcPeeringConnectionId with
        | Except.error e =>
          ([Event.describePeering region filters,
            Event.deletePeering region pcx.vpcPeeringConnectionId,
            Event.waitPeeringDeleted region pcx.vpcPeeringConnectionId], Except.error e)
        | Except.ok _ =>
          ([Event.describePeering region filters,
            Event.deletePeering region pcx.vpcPeeringConnectionId,
            Event.waitPeeringDeleted region pcx.vpcPeeringConnectionId], Except.ok ())

/-- `Run`'s call site: any error from `deleteVpcPeeringConnection` is
fatal with this message. -/
def runDeletePeering (env : AwsEnv) (region v1 v2 : String) : Step Unit :=
  match deleteVpcPeeringConnection env region v1 v2 with
  | (evs, Except.ok _) => (evs, Except.ok ())
  | (evs, Except.error _) => (evs, Except.error "Failed to delete VPC peering connection")

/-! ## `deleteRouteFromRouteTables` -/

/-- The page-callback loop of `deleteRouteFromRouteTables`: delete the
route to `peerCIDR` from each described route table, tolerating
`InvalidRoute.NotFound` (warn) and calling `log.Fatalf` otherwise. -/
def deleteRoutesLoop (env : AwsEnv) (region peerCIDR : String) :
    List RouteTable → List Event × Except String Unit
  | [] => ([], Except.ok ())
  | rt :: rest =>
    match env.deleteRoute region rt.routeTableId peerCIDR with
    | Except.ok _ =>
      let r := deleteRoutesLoop env region peerCIDR rest
      (Event.deleteRoute region rt.routeTableId peerCIDR :: r.1, r.2)
    | Except.error e =>
      if e.isCode "InvalidRoute.NotFound" then
        let r := deleteRoutesLoop env region peerCIDR rest
        (Event.deleteRoute region rt.routeTableId peerCIDR :: r.1, r.2)
      else
        ([Event.deleteRoute region rt.routeTableId peerCIDR],
         Except.error ("Failed to delete route from route table " ++ rt.routeTableId))

/-- Embedding of `deleteRouteFromRouteTables`: describe the route tables
of `vpcId` matching the additional filters and delete the route to
`peerCIDR` from each.  A describe error is returned to `Run`
(`Except.error none`); an intolerable delete error is a `log.Fatalf`
inside the loop (`Except.error (some msg)`). -/
def deleteRouteFromRouteTables (env : AwsEnv) (region vpcId peerCIDR : String)
    (additionalFiltersForRouteTables : List EC2Filter) :
    List Event × Except (Option String) Unit :=
  let filters := EC2Filter.mk "vpc-id" [vpcId] :: additionalFiltersForRouteTables
  match env.routeTables region with
  | Except.error _ => ([Event.describeRouteTables region filters], Except.error none)
  | Except.ok world =>
    let tables := world.filter (fun rt => filters.all (fun f => routeTableMatchesFilter f rt))
    match deleteRoutesLoop env region peerCIDR tables with
    | (evs, Except.ok _) =>
      (Event.describeRouteTables region filters :: evs, Except.ok ())
    | (evs, Except.error m) =>
      (Event.describeRouteTables region filters :: evs, Except.error (some m))

/-- `Run`'s call sites: an error returned by `deleteRouteFromRouteTables`
is fatal with the call-site message, a `log.Fatalf` inside the loop keeps
its own message. -/
def runDeleteRoutes (env : AwsEnv) (region vpcId peerCIDR : String)
    (additionalFilters : List EC2Filter) (fatalMsg : String) : Step Unit :=
  match deleteRouteFromRouteTables env region vpcId peerCIDR additionalFilters with
  | (evs, Except.ok _) => (evs, Except.ok ())
  | (evs, Except.error none) => (evs, Except.error fatalMsg)
  | (evs, Except.error (some m)) => (evs, Except.error m)

/-! ## The security-group step of `Run` -/

/-- The `switch` updating the security groups: when the associated VPC and
the endpoint VPC share a region, revoke ingress on each VPC's SG by
reference to the peer VPC's SG; otherwise by reference to the peer VPC's
CIDR block.  `InvalidPermission.NotFound` is tolerated in all four calls. -/
def sgStep (env : AwsEnv) (assocRegion endpointRegion assocWorkerSG endpointDefaultSG
    endpointCidr assocCidr : String) : Step Unit :=
  if assocRegion = endpointRegion then
    callTolerate (Event.revokeIngressFromSG assocRegion assocWorkerSG endpointDefaultSG)
      (env.revokeIngressFromSG assocRegion assocWorkerSG endpointDefaultSG)
      "InvalidPermission.NotFound"
      "Failed to revoke access from the endpoint VPC's default SG to the associated VPC's worker SG"
    >>= fun _ =>
    callTolerate (Event.revokeIngressFromSG endpointRegion endpointDefaultSG assocWorkerSG)
      (env.revokeIngressFromSG endpointRegion endpointDefaultSG assocWorkerSG)
      "InvalidPermission.NotFound"
      "Failed to revoke access from the associated VPC's worker SG to the endpoint VPC's default SG"
  else
    callTolerate (Event.revokeIngressFromCIDR assocRegion assocWorkerSG endpointCidr)
      (env.revokeIngressFromCIDR assocRegion assocWorkerSG endpointCidr)
      "InvalidPermission.NotFound"
      "Failed to revoke access from the endpoint VPC's CIDR block to the associated VPC's worker SG"
    >>= fun _ =>
    callTolerate (Event.revokeIngressFromCIDR endpointRegion endpointDefaultSG assocCidr)
      (env.revokeIngressFromCIDR endpointRegion endpointDefaultSG assocCidr)
      "InvalidPermission.NotFound"
      "Failed to revoke access from the associated VPC's CIDR block to the endpoint VPC's default SG"

/-! ## The remove command: `Complete` and `Run` -/

/-- The options `Complete` resolves before `Run`. `awsPrivateLink` is the
non-nil `HiveConfig.spec.awsPrivateLink` value. -/
structure RemoveOptions where
  awsPrivateLink : AWSPrivateLinkConfig
  endpointVpcId : String
  endpointVpcRegion : String
  endpointVpcIdx : Nat
  endpointSubnetIds : List String
deriving DecidableEq

/-- Modelled from the spec: `awsutils.FindVpcInInventory` is not part of
the excerpt; per its callers it locates the requested VPC id in
`endpointVPCInventory`, returning the index of the (first) entry whose
VPC id equals it, and reporting failure when there is none. -/
def findVpcInInventory (vpcId : String) (inv : List AWSPrivateLinkInventory) : Option Nat :=
  inv.findIdx? (fun entry => entry.awsPrivateLinkVPC.vpcId = vpcId)

/-- Embedding of `Complete` (its pure part): require
`spec.awsPrivateLink` non-nil, locate the endpoint VPC in the inventory
(fatal otherwise) and record its region, index and subnet ids. -/
def complete (cfg : HiveConfig) (vpcIdArg : String) : Option RemoveOptions :=
  match cfg.awsPrivateLink with
  | none => none
  | some pl =>
    match findVpcInInventory vpcIdArg pl.endpointVPCInventory with
    | none => none
    | some idx =>
      let entry := pl.endpointVPCInventory.getD idx ⟨⟨"", ""⟩, []⟩
      some { awsPrivateLink := pl
             endpointVpcId := vpcIdArg
             endpointVpcRegion := entry.awsPrivateLinkVPC.region
             endpointVpcIdx := idx
             endpointSubnetIds := entry.subnets.map (fun s => s.subnetID) }

/-- One iteration of `Run`'s loop over the associated VPCs: resolve both
CIDRs, delete the peering connection, delete the route to the peer CIDR
from the private route tables of the associated VPC and from the route
tables of the endpoint subnets, then revoke the SG ingress rules. -/
def processAssociatedVpc (env : AwsEnv) (endpointVpcId endpointVpcRegion endpointVPCDefaultSG :
    String) (endpointSubnetIds : List String) (vpc : AWSAssociatedVPC) : Step Unit :=
  let assocRegion := vpc.awsPrivateLinkVPC.region
  let assocVpcId := vpc.awsPrivateLinkVPC.vpcId
  callFatal (Event.getCidr assocRegion assocVpcId) (env.cidrOf assocRegion assocVpcId)
    "Failed to get CIDR of associated VPC"
  >>= fun assocCidr =>
  callFatal (Event.getCidr endpointVpcRegion endpointVpcId)
    (env.cidrOf endpointVpcRegion endpointVpcId)
    "Failed to get CIDR of endpoint VPC"
  >>= fun endpointCidr =>
  runDeletePeering env assocRegion assocVpcId endpointVpcId
  >>= fun _ =>
  runDeleteRoutes env assocRegion assocVpcId endpointCidr
    [⟨"tag:Name", ["*private*"]⟩]
    "Failed to delete route from private route tables of the associated VPC"
  >>= fun _ =>
  runDeleteRoutes env endpointVpcRegion endpointVpcId assocCidr
    [⟨"association.subnet-id", endpointSubnetIds⟩]
    "Failed to delete route from route tables of the endpoint subnets"
  >>= fun _ =>
  callFatal (Event.getWorkerSG assocRegion assocVpcId) (env.workerSGOf assocRegion assocVpcId)
    "Failed to get worker SG of the associated Hive cluster"
  >>= fun assocWorkerSG =>
  sgStep env assocRegion endpointVpcRegion assocWorkerSG endpointVPCDefaultSG
    endpointCidr assocCidr

/-- `Run`'s loop over `o.associatedVpcs`, in order. -/
def processAll (env : AwsEnv) (endpointVpcId endpointVpcRegion endpointVPCDefaultSG : String)
    (endpointSubnetIds : List String) : List AWSAssociatedVPC → Step Unit
  | [] => pure ()
  | vpc :: rest =>
    processAssociatedVpc env endpointVpcId endpointVpcRegion endpointVPCDefaultSG
      endpointSubnetIds vpc
    >>= fun _ =>
    processAll env endpointVpcId endpointVpcRegion endpointVPCDefaultSG endpointSubnetIds rest

/-- Go's `inv[idx] = inv[len-1]; inv = inv[:len-1]`: move the last entry
into position `idx` and truncate. -/
def swapRemove {α : Type} (l : List α) (idx : Nat) : List α :=
  match l.getLast? with
  | none => l
  | some last => (l.set idx last).take (l.length - 1)

/-- The configuration written back by `removeEndpointVpcFromHiveConfig`. -/
def removedConfig (o : RemoveOptions) : HiveConfig :=
  { awsPrivateLink := some
      { o.awsPrivateLink with
        endpointVPCInventory := swapRemove o.awsPrivateLink.endpointVPCInventory o.endpointVpcIdx } }

/-- Embedding of `removeEndpointVpcFromHiveConfig`: swap-remove the
inventory entry at `endpointVpcIdx` and update the HiveConfig, fatally on
an update error. -/
def removeEndpointVpcStep (kube : KubeEnv) (o : RemoveOptions) : Step Unit :=
  match kube.updateHiveConfig (removedConfig o) with
  | Except.ok _ => ([Event.updateHiveConfig (removedConfig o)], Except.ok ())
  | Except.error _ =>
    ([Event.updateHiveConfig (removedConfig o)], Except.error "Failed to update HiveConfig")

/-- Embedding of the remove command's `Run`: get the endpoint VPC's
default SG, process each associated VPC in order, then remove the endpoint
VPC from the HiveConfig and write it back. -/
def runRemove (env : AwsEnv) (kube : KubeEnv) (o : RemoveOptions) : Step Unit :=
  callFatal (Event.getDefaultSG o.endpointVpcRegion o.endpointVpcId)
    (env.defaultSGOf o.endpointVpcRegion o.endpointVpcId)
    "Failed to get default SG of the endpoint VPC"
  >>= fun endpointVPCDefaultSG =>
  processAll env o.endpointVpcId o.endpointVpcRegion endpointVPCDefaultSG o.endpointSubnetIds
    o.awsPrivateLink.associatedVPCs
  >>= fun _ =>
  removeEndpointVpcStep kube o

/-! ## The disable command's `Run` -/

/-- The guard of `disable`: PrivateLink enabled with at least one endpoint
VPC and at least one associated VPC is fatal. -/
def disableGuardTriggers (cfg : HiveConfig) : Bool :=
  match cfg.awsPrivateLink with
  | none => false
  | some pl => !pl.endpointVPCInventory.isEmpty && !pl.associatedVPCs.isEmpty

/-- Embedding of the disable command's `Run`: get the HiveConfig (fatal on
error), apply the guard, list the Hub-account credentials Secrets (an
error is logged and the run continues with an empty list), delete each
listed Secret (errors are logged and ignored), then empty
`spec.awsPrivateLink` and update the HiveConfig (fatal on error). -/
def runDisable (kube : KubeEnv) : Step Unit :=
  match kube.getHiveConfig with
  | Except.error _ => ([Event.getHiveConfig], Except.error "Failed to get HiveConfig/hive")
  | Except.ok cfg =>
    if disableGuardTriggers cfg then
      ([Event.getHiveConfig],
       Except.error "HiveConfig has at least 1 associated VPC and 1 endpoint VPC specified")
    else
      let secrets :=
        match kube.listHubAcctSecrets with
        | Except.error _ => []
        | Except.ok names => names
      let evs := Event.getHiveConfig :: Event.listHubAcctSecrets ::
        secrets.map Event.deleteSecret
      match kube.updateHiveConfig { awsPrivateLink := none } with
      | Except.error _ =>
        (evs ++ [Event.updateHiveConfig { awsPrivateLink := none }],
         Except.error "Failed to update HiveConfig")
      | Except.ok _ =>
        (evs ++ [Event.updateHiveConfig { awsPrivateLink := none }], Except.ok ())

/-! ## Event kinds -/

/-- Read-only lookups (CIDR, default SG, worker SG). -/
def Event.isRead : Event → Bool
  | .getCidr _ _ | .getWorkerSG _ _ | .getDefaultSG _ _ => true
  | _ => false

/-- Events of the VPC-peering-connection teardown step. -/
def Event.isPeeringTeardown : Event → Bool
  | .describePeering _ _ | .deletePeering _ _ | .waitPeeringDeleted _ _ => true
  | _ => false

/-- Events of the route-deletion step. -/
def Event.isRouteTeardown : Event → Bool
  | .describeRouteTables _ _ | .deleteRoute _ _ _ => true
  | _ => false

/-- Events of the security-group-ingress-revocation step. -/
def Event.isSgRevoke : Event → Bool
  | .revokeIngressFromSG _ _ _ | .revokeIngressFromCIDR _ _ _ => true
  | _ => false

/-- The HiveConfig write-back. -/
def Event.isUpdate : Event → Bool
  | .updateHiveConfig _ => true
  | _ => false

/-- Every event of `l` is of kind `p`. -/
def OnlyKind (p : Event → Bool) (l : List Event) : Prop :=
  ∀ e ∈ l, p e = true

theorem onlyKind_nil {p : Event → Bool} : OnlyKind p [] := by
  intro e he; cases he

theorem onlyKind_append {p : Event → Bool} {l₁ l₂ : List Event}
    (h₁ : OnlyKind p l₁) (h₂ : OnlyKind p l₂) : OnlyKind p (l₁ ++ l₂) := by
  intro e he
  rcases List.mem_append.mp he with h | h
  · exact h₁ e h
  · exact h₂ e h

/-- The fixed linear order of one loop iteration of the remove command:
reads, then peering-connection teardown, then route deletions, then a
read, then SG revocations (later segments are empty when the iteration
aborted early). -/
def SegDecomp (b : List Event) : Prop :=
  ∃ r1 pe rt r2 sg,
    b = r1 ++ pe ++ rt ++ r2 ++ sg ∧
    OnlyKind Event.isRead r1 ∧ OnlyKind Event.isPeeringTeardown pe ∧
    OnlyKind Event.isRouteTeardown rt ∧ OnlyKind Event.isRead r2 ∧
    OnlyKind Event.isSgRevoke sg

/-! ## C4: the peering-connection teardown tolerates absence -/

/-- The filter conjunction used by `deleteVpcPeeringConnection` holds of a
peering connection exactly when both of its sides are among the two VPCs
and it is active. -/
theorem peeringFilters_all_iff (v1 v2 : String) (p : VpcPeeringConnection) :
    ((peeringFilters v1 v2).all (fun f => peeringMatchesFilter f p) = true) ↔
      (p.requesterVpcId ∈ [v1, v2] ∧ p.accepterVpcId ∈ [v1, v2] ∧
        p.statusCode = "active") := by
  simp [peeringFilters, peeringMatchesFilter, List.all, or_comm]

/-- C4: for every pair of VPC ids, when the describe call (filtered to
active connections between the two VPCs) reports nothing,
`deleteVpcPeeringConnection` returns success having issued no delete call;
when an active connection exists it deletes the first reported one and
waits for the deletion to complete before returning, and a wait failure is
returned as an error. -/
theorem deleteVpcPeeringConnection_tolerates_absence (env : AwsEnv) (region v1 v2 : String)
    (world : List VpcPeeringConnection)
    (hw : env.peeringConnections region = Except.ok world) :
    ((∀ p ∈ world, ¬(p.requesterVpcId ∈ [v1, v2] ∧ p.accepterVpcId ∈ [v1, v2] ∧
        p.statusCode = "active")) →
      deleteVpcPeeringConnection env region v1 v2 =
        ([Event.describePeering region (peeringFilters v1 v2)], Except.ok ()))
    ∧ (∀ pcx rest,
        world.filter (fun p => (peeringFilters v1 v2).all (fun f => peeringMatchesFilter f p))
          = pcx :: rest →
        (env.deletePeering region pcx.vpcPeeringConnectionId = Except.ok () →
          env.waitPeeringDeleted region pcx.vpcPeeringConnectionId = Except.ok () →
          deleteVpcPeeringConnection env region v1 v2 =
            ([Event.describePeering region (peeringFilters v1 v2),
              Event.deletePeering region pcx.vpcPeeringConnectionId,
              Event.waitPeeringDeleted region pcx.vpcPeeringConnectionId], Except.ok ()))
        ∧ (∀ e, env.deletePeering region pcx.vpcPeeringConnectionId = Except.ok () →
            env.waitPeeringDeleted region pcx.vpcPeeringConnectionId = Except.error e →
            (deleteVpcPeeringConnection env region v1 v2).2 = Except.error e)) := by
  constructor
  · intro habsent
    have hfil : world.filter
        (fun p => (peeringFilters v1 v2).all (fun f => peeringMatchesFilter f p)) = [] := by
      rw [List.filter_eq_nil_iff]
      intro p hp
      intro hall
      exact habsent p hp ((peeringFilters_all_iff v1 v2 p).mp hall)
    simp only [deleteVpcPeeringConnection, hw, hfil]
  · intro pcx rest hfil
    constructor
    · intro hdel hwait
      simp only [deleteVpcPeeringConnection, hw, hfil, hdel, hwait]
    · intro e hdel hwait
      simp only [deleteVpcPeeringConnection, hw, hfil, hdel, hwait]

/-- Witness environment for the peering-connection theorems: one active
peering connection between `vpc-a` and `vpc-e`. -/
def peeringEnvPresent : AwsEnv where
  cidrOf := fun _ _ => Except.ok "10.0.0.0/16"
  defaultSGOf := fun _ _ => Except.ok "sg-default"
  workerSGOf := fun _ _ => Except.ok "sg-worker"
  peeringConnections := fun _ =>
    Except.ok [⟨"pcx-1", "vpc-a", "vpc-e", "active"⟩]
  deletePeering := fun _ _ => Except.ok ()
  waitPeeringDeleted := fun _ _ => Except.ok ()
  routeTables := fun _ => Except.ok []
  deleteRoute := fun _ _ _ => Except.ok ()
  revokeIngressFromSG := fun _ _ _ => Except.ok ()
  revokeIngressFromCIDR := fun _ _ _ => Except.ok ()

/-- Witness environment with a peering world whose only connection is
between two unrelated VPCs. -/
def peeringEnvAbsent : AwsEnv :=
  { peeringEnvPresent with
    peeringConnections := fun _ =>
      Except.ok [⟨"pcx-2", "vpc-x", "vpc-y", "active"⟩] }

theorem deleteVpcPeeringConnection_tolerates_absence_witness :
    deleteVpcPeeringConnection peeringEnvAbsent "us-east-1" "vpc-a" "vpc-e" =
      ([Event.describePeering "us-east-1" (peeringFilters "vpc-a" "vpc-e")], Except.ok ())
    ∧ deleteVpcPeeringConnection peeringEnvPresent "us-east-1" "vpc-a" "vpc-e" =
      ([Event.describePeering "us-east-1" (peeringFilters "vpc-a" "vpc-e"),
        Event.deletePeering "us-east-1" "pcx-1",
        Event.waitPeeringDeleted "us-east-1" "pcx-1"], Except.ok ()) := by
  constructor
  · exact (deleteVpcPeeringConnection_tolerates_absence peeringEnvAbsent "us-east-1"
      "vpc-a" "vpc-e" [⟨"pcx-2", "vpc-x", "vpc-y", "active"⟩] rfl).1 (by decide)
  · exact ((deleteVpcPeeringConnection_tolerates_absence peeringEnvPresent "us-east-1"
      "vpc-a" "vpc-e" [⟨"pcx-1", "vpc-a", "vpc-e", "active"⟩] rfl).2
      ⟨"pcx-1", "vpc-a", "vpc-e", "active"⟩ [] (by decide)).1 rfl rfl

/-! ## C3: the SG step branches only on region equality -/

@[simp] theorem tolerableB_ok (c : String) : tolerableB (Except.ok ()) c = true := rfl

@[simp] theorem tolerableB_error (err : AwsErr) (c : String) :
    tolerableB (Except.error err) c = err.isCode c := rfl

/-- Two tolerating calls in sequence: success exactly when both results
are tolerable, the second call only happens when the first was tolerated,
and nothing but the two events is performed. -/
theorem twoTolerate_spec (e1 e2 : Event) (r1 r2 : Except AwsErr Unit) (c m1 m2 : String) :
    ((callTolerate e1 r1 c m1 >>= fun _ => callTolerate e2 r2 c m2).2 = Except.ok () ↔
      (tolerableB r1 c = true ∧ tolerableB r2 c = true))
    ∧ (tolerableB r1 c = true →
        (callTolerate e1 r1 c m1 >>= fun _ => callTolerate e2 r2 c m2).1 = [e1, e2])
    ∧ (∀ ev ∈ (callTolerate e1 r1 c m1 >>= fun _ => callTolerate e2 r2 c m2).1,
        ev = e1 ∨ ev = e2) := by
  cases r1 with
  | ok a =>
    cases a
    cases r2 with
    | ok b => cases b; simp [callTolerate]
    | error err2 =>
      by_cases hc2 : err2.isCode c = true
      · simp [callTolerate, hc2]
      · simp only [Bool.not_eq_true] at hc2
        simp [callTolerate, hc2]
  | error err1 =>
    by_cases hc1 : err1.isCode c = true
    · cases r2 with
      | ok b => cases b; simp [callTolerate, hc1]
      | error err2 =>
        by_cases hc2 : err2.isCode c = true
        · simp [callTolerate, hc1, hc2]
        · simp only [Bool.not_eq_true] at hc2
          simp [callTolerate, hc1, hc2]
    · simp only [Bool.not_eq_true] at hc1
      simp [callTolerate, hc1]

/-- C3: the SG step branches only on whether the associated VPC's region
equals the endpoint VPC's region.  Equal regions: ingress revoked on each
VPC's SG by reference to the peer VPC's SG (worker SG of the associated
VPC against default SG of the endpoint VPC, in both directions).
Different regions: ingress revoked by reference to the peer VPC's CIDR
block.  In both branches success holds exactly when each revoke result is
a success or an `InvalidPermission.NotFound` error. -/
theorem sgStep_branches_on_region (env : AwsEnv)
    (aR eR wSG dSG eCidr aCidr : String) :
    (aR = eR →
      ((sgStep env aR eR wSG dSG eCidr aCidr).2 = Except.ok () ↔
        (tolerableB (env.revokeIngressFromSG aR wSG dSG) "InvalidPermission.NotFound" = true ∧
         tolerableB (env.revokeIngressFromSG eR dSG wSG) "InvalidPermission.NotFound" = true))
      ∧ (tolerableB (env.revokeIngressFromSG aR wSG dSG) "InvalidPermission.NotFound" = true →
          (sgStep env aR eR wSG dSG eCidr aCidr).1 =
            [Event.revokeIngressFromSG aR wSG dSG, Event.revokeIngressFromSG eR dSG wSG])
      ∧ (∀ ev ∈ (sgStep env aR eR wSG dSG eCidr aCidr).1,
          ev = Event.revokeIngressFromSG aR wSG dSG ∨
          ev = Event.revokeIngressFromSG eR dSG wSG))
    ∧ (aR ≠ eR →
      ((sgStep env aR eR wSG dSG eCidr aCidr).2 = Except.ok () ↔
        (tolerableB (env.revokeIngressFromCIDR aR wSG eCidr) "InvalidPermission.NotFound" = true ∧
         tolerableB (env.revokeIngressFromCIDR eR dSG aCidr) "InvalidPermission.NotFound" = true))
      ∧ (tolerableB (env.revokeIngressFromCIDR aR wSG eCidr) "InvalidPermission.NotFound" = true →
          (sgStep env aR eR wSG dSG eCidr aCidr).1 =
            [Event.revokeIngressFromCIDR aR wSG eCidr, Event.revokeIngressFromCIDR eR dSG aCidr])
      ∧ (∀ ev ∈ (sgStep env aR eR wSG dSG eCidr aCidr).1,
          ev = Event.revokeIngressFromCIDR aR wSG eCidr ∨
          ev = Event.revokeIngressFromCIDR eR dSG aCidr)) := by
  constructor
  · intro h
    have hs : sgStep env aR eR wSG dSG eCidr aCidr =
        (callTolerate (Event.revokeIngressFromSG aR wSG dSG)
          (env.revokeIngressFromSG aR wSG dSG) "InvalidPermission.NotFound"
          "Failed to revoke access from the endpoint VPC's default SG to the associated VPC's worker SG"
        >>= fun _ =>
        callTolerate (Event.revokeIngressFromSG eR dSG wSG)
          (env.revokeIngressFromSG eR dSG wSG) "InvalidPermission.NotFound"
          "Failed to revoke access from the associated VPC's worker SG to the endpoint VPC's default SG") := by
      simp [sgStep, h]
    rw [hs]
    exact twoTolerate_spec _ _ _ _ _ _ _
  · intro h
    have hs : sgStep env aR eR wSG dSG eCidr aCidr =
        (callTolerate (Event.revokeIngressFromCIDR aR wSG eCidr)
          (env.revokeIngressFromCIDR aR wSG eCidr) "InvalidPermission.NotFound"
          "Failed to revoke access from the endpoint VPC's CIDR block to the associated VPC's worker SG"
        >>= fun _ =>
        callTolerate (Event.revokeIngressFromCIDR eR dSG aCidr)
          (env.revokeIngressFromCIDR eR dSG aCidr) "InvalidPermission.NotFound"
          "Failed to revoke access from the associated VPC's CIDR block to the endpoint VPC's default SG") := by
      simp [sgStep, h]
    rw [hs]
    exact twoTolerate_spec _ _ _ _ _ _ _

theorem sgStep_branches_on_region_witness :
    (sgStep peeringEnvPresent "us-east-1" "us-east-1" "sg-worker" "sg-default"
        "10.1.0.0/16" "10.0.0.0/16").1 =
      [Event.revokeIngressFromSG "us-east-1" "sg-worker" "sg-default",
       Event.revokeIngressFromSG "us-east-1" "sg-default" "sg-worker"]
    ∧ (sgStep peeringEnvPresent "us-west-2" "us-east-1" "sg-worker" "sg-default"
        "10.1.0.0/16" "10.0.0.0/16").1 =
      [Event.revokeIngressFromCIDR "us-west-2" "sg-worker" "10.1.0.0/16",
       Event.revokeIngressFromCIDR "us-east-1" "sg-default" "10.0.0.0/16"] := by
  constructor
  · exact ((sgStep_branches_on_region peeringEnvPresent "us-east-1" "us-east-1"
      "sg-worker" "sg-default" "10.1.0.0/16" "10.0.0.0/16").1 rfl).2.1 rfl
  · exact ((sgStep_branches_on_region peeringEnvPresent "us-west-2" "us-east-1"
      "sg-worker" "sg-default" "10.1.0.0/16" "10.0.0.0/16").2 (by decide)).2.1 rfl

/-! ## C5: route deletion operates only on the filtered route tables -/

/-- The `*private*` name glob matches by substring. -/
theorem matchesNameGlob_private (s : String) :
    matchesNameGlob "*private*" s = containsSub s "private" := rfl

/-- The filter pair of the associated-VPC call site selects exactly the
route tables of that VPC whose `Name` tag contains `private`. -/
theorem privateRouteTableFilter_iff (v : String) (rt : RouteTable) :
    ((EC2Filter.mk "vpc-id" [v] :: [EC2Filter.mk "tag:Name" ["*private*"]]).all
        (fun f => routeTableMatchesFilter f rt) = true) ↔
      (rt.vpcId = v ∧ containsSub rt.nameTag "private" = true) := by
  simp [routeTableMatchesFilter, matchesNameGlob_private]

/-- The filter pair of the endpoint-VPC call site selects exactly the
route tables of the endpoint VPC associated with one of the endpoint
subnets. -/
theorem subnetRouteTableFilter_iff (v : String) (ids : List String) (rt : RouteTable) :
    ((EC2Filter.mk "vpc-id" [v] :: [EC2Filter.mk "association.subnet-id" ids]).all
        (fun f => routeTableMatchesFilter f rt) = true) ↔
      (rt.vpcId = v ∧ ∃ s ∈ rt.subnetAssociations, s ∈ ids) := by
  simp [routeTableMatchesFilter]

/-- The delete loop succeeds exactly when every delete result is a success
or an `InvalidRoute.NotFound` error, and in that case it deletes the route
from each described table in order. -/
theorem deleteRoutesLoop_spec (env : AwsEnv) (region cidr : String)
    (tables : List RouteTable) :
    ((deleteRoutesLoop env region cidr tables).2 = Except.ok () ↔
      ∀ rt ∈ tables, tolerableB (env.deleteRoute region rt.routeTableId cidr)
        "InvalidRoute.NotFound" = true)
    ∧ ((∀ rt ∈ tables, tolerableB (env.deleteRoute region rt.routeTableId cidr)
          "InvalidRoute.NotFound" = true) →
        (deleteRoutesLoop env region cidr tables).1 =
          tables.map (fun rt => Event.deleteRoute region rt.routeTableId cidr)) := by
  induction tables with
  | nil => simp [deleteRoutesLoop]
  | cons rt rest ih =>
    rcases ih with ⟨ih1, ih2⟩
    cases hd : env.deleteRoute region rt.routeTableId cidr with
    | ok a =>
      cases a
      constructor
      · simp only [deleteRoutesLoop, hd, ih1]
        constructor
        · intro hall
          intro t ht
          rcases List.mem_cons.mp ht with h | h
          · subst h; simp [hd]
          · exact hall t h
        · intro hall
          intro t ht
          exact hall t (List.mem_cons_of_mem _ ht)
      · intro hall
        simp only [deleteRoutesLoop, hd, List.map_cons, List.cons.injEq, true_and]
        exact ih2 (fun t ht => hall t (List.mem_cons_of_mem _ ht))
    | error err =>
      by_cases hc : err.isCode "InvalidRoute.NotFound" = true
      · constructor
        · simp only [deleteRoutesLoop, hd, hc, if_true, ih1]
          constructor
          · intro hall t ht
            rcases List.mem_cons.mp ht with h | h
            · subst h; simp [hd, hc]
            · exact hall t h
          · intro hall t ht
            exact hall t (List.mem_cons_of_mem _ ht)
        · intro hall
          simp only [deleteRoutesLoop, hd, hc, if_true, List.map_cons, List.cons.injEq, true_and]
          exact ih2 (fun t ht => hall t (List.mem_cons_of_mem _ ht))
      · simp only [Bool.not_eq_true] at hc
        constructor
        · simp only [deleteRoutesLoop, hd, hc]
          constructor
          · intro hbad; cases hbad
          · intro hall
            have := hall rt (List.mem_cons_self rt rest)
            rw [hd] at this
            simp only [tolerableB_error, hc] at this
            cases this
        · intro hall
          have := hall rt (List.mem_cons_self rt rest)
          rw [hd] at this
          simp only [tolerableB_error, hc] at this
          cases this

/-- `Run`'s wrapper around `deleteRouteFromRouteTables`: with the
route-table world described successfully, the call's outcome is the
loop's outcome over the filtered tables, and its trace is the describe
event followed by the loop's trace. -/
theorem runDeleteRoutes_spec (env : AwsEnv) (region vpcId peerCIDR msg : String)
    (extras : List EC2Filter) (world : List RouteTable)
    (hw : env.routeTables region = Except.ok world) :
    ((runDeleteRoutes env region vpcId peerCIDR extras msg).2 = Except.ok () ↔
      (deleteRoutesLoop env region peerCIDR (world.filter (fun rt =>
        (EC2Filter.mk "vpc-id" [vpcId] :: extras).all
          (fun f => routeTableMatchesFilter f rt)))).2 = Except.ok ())
    ∧ (runDeleteRoutes env region vpcId peerCIDR extras msg).1 =
        Event.describeRouteTables region (EC2Filter.mk "vpc-id" [vpcId] :: extras) ::
          (deleteRoutesLoop env region peerCIDR (world.filter (fun rt =>
            (EC2Filter.mk "vpc-id" [vpcId] :: extras).all
              (fun f => routeTableMatchesFilter f rt)))).1 := by
  cases hres : deleteRoutesLoop env region peerCIDR (world.filter (fun rt =>
      (EC2Filter.mk "vpc-id" [vpcId] :: extras).all
        (fun f => routeTableMatchesFilter f rt))) with
  | mk evs r =>
    cases r with
    | ok a =>
      cases a
      have hgoal : runDeleteRoutes env region vpcId peerCIDR extras msg =
          (Event.describeRouteTables region (EC2Filter.mk "vpc-id" [vpcId] :: extras) :: evs,
            Except.ok ()) := by
        simp only [runDeleteRoutes, deleteRouteFromRouteTables, hw]
        rw [hres]
      rw [hgoal]
      exact ⟨Iff.rfl, rfl⟩
    | error m =>
      have hgoal : runDeleteRoutes env region vpcId peerCIDR extras msg =
          (Event.describeRouteTables region (EC2Filter.mk "vpc-id" [vpcId] :: extras) :: evs,
            Except.error m) := by
        simp only [runDeleteRoutes, deleteRouteFromRouteTables, hw]
        rw [hres]
      rw [hgoal]
      constructor
      · constructor
        · intro h; cases h
        · intro h; cases h
      · rfl

/-- C5: with the route-table world described successfully, the
associated-VPC call deletes the route to the endpoint VPC's CIDR exactly
from the route tables of the associated VPC whose `Name` tag matches
`*private*`, the endpoint-VPC call deletes the route to the associated
VPC's CIDR exactly from the route tables associated with the configured
endpoint subnets, and each call succeeds exactly when every matching
table's delete result is a success or an `InvalidRoute.NotFound` error. -/
theorem routeDeletion_on_filtered_tables (env : AwsEnv) (region vpcId peerCIDR : String)
    (subnetIds : List String) (world : List RouteTable)
    (hw : env.routeTables region = Except.ok world) :
    (((runDeleteRoutes env region vpcId peerCIDR [EC2Filter.mk "tag:Name" ["*private*"]]
        "Failed to delete route from private route tables of the associated VPC").2
          = Except.ok () ↔
      ∀ rt ∈ world.filter (fun rt =>
          decide (rt.vpcId = vpcId) && containsSub rt.nameTag "private"),
        tolerableB (env.deleteRoute region rt.routeTableId peerCIDR)
          "InvalidRoute.NotFound" = true)
    ∧ ((∀ rt ∈ world.filter (fun rt =>
          decide (rt.vpcId = vpcId) && containsSub rt.nameTag "private"),
        tolerableB (env.deleteRoute region rt.routeTableId peerCIDR)
          "InvalidRoute.NotFound" = true) →
        (runDeleteRoutes env region vpcId peerCIDR [EC2Filter.mk "tag:Name" ["*private*"]]
          "Failed to delete route from private route tables of the associated VPC").1 =
          Event.describeRouteTables region
              (EC2Filter.mk "vpc-id" [vpcId] :: [EC2Filter.mk "tag:Name" ["*private*"]]) ::
            (world.filter (fun rt =>
                decide (rt.vpcId = vpcId) && containsSub rt.nameTag "private")).map
              (fun rt => Event.deleteRoute region rt.routeTableId peerCIDR)))
    ∧ (((runDeleteRoutes env region vpcId peerCIDR
          [EC2Filter.mk "association.subnet-id" subnetIds]
          "Failed to delete route from route tables of the endpoint subnets").2
            = Except.ok () ↔
      ∀ rt ∈ world.filter (fun rt =>
          decide (rt.vpcId = vpcId) && rt.subnetAssociations.any subnetIds.contains),
        tolerableB (env.deleteRoute region rt.routeTableId peerCIDR)
          "InvalidRoute.NotFound" = true)
    ∧ ((∀ rt ∈ world.filter (fun rt =>
          decide (rt.vpcId = vpcId) && rt.subnetAssociations.any subnetIds.contains),
        tolerableB (env.deleteRoute region rt.routeTableId peerCIDR)
          "InvalidRoute.NotFound" = true) →
        (runDeleteRoutes env region vpcId peerCIDR
          [EC2Filter.mk "association.subnet-id" subnetIds]
          "Failed to delete route from route tables of the endpoint subnets").1 =
          Event.describeRouteTables region
              (EC2Filter.mk "vpc-id" [vpcId] ::
                [EC2Filter.mk "association.subnet-id" subnetIds]) ::
            (world.filter (fun rt =>
                decide (rt.vpcId = vpcId) && rt.subnetAssociations.any subnetIds.contains)).map
              (fun rt => Event.deleteRoute region rt.routeTableId peerCIDR))) := by
  have hpriv : world.filter (fun rt =>
      (EC2Filter.mk "vpc-id" [vpcId] :: [EC2Filter.mk "tag:Name" ["*private*"]]).all
        (fun f => routeTableMatchesFilter f rt)) =
      world.filter (fun rt => decide (rt.vpcId = vpcId) && containsSub rt.nameTag "private") := by
    apply List.filter_congr
    intro rt _
    rw [Bool.eq_iff_iff, privateRouteTableFilter_iff]
    simp
  have hsub : world.filter (fun rt =>
      (EC2Filter.mk "vpc-id" [vpcId] :: [EC2Filter.mk "association.subnet-id" subnetIds]).all
        (fun f => routeTableMatchesFilter f rt)) =
      world.filter (fun rt =>
        decide (rt.vpcId = vpcId) && rt.subnetAssociations.any subnetIds.contains) := by
    apply List.filter_congr
    intro rt _
    rw [Bool.eq_iff_iff, subnetRouteTableFilter_iff]
    simp [List.any_eq_true]
  have hspecPriv := runDeleteRoutes_spec env region vpcId peerCIDR
    "Failed to delete route from private route tables of the associated VPC"
    [EC2Filter.mk "tag:Name" ["*private*"]] world hw
  have hspecSub := runDeleteRoutes_spec env region vpcId peerCIDR
    "Failed to delete route from route tables of the endpoint subnets"
    [EC2Filter.mk "association.subnet-id" subnetIds] world hw
  rw [hpriv] at hspecPriv
  rw [hsub] at hspecSub
  have hloopPriv := deleteRoutesLoop_spec env region peerCIDR
    (world.filter (fun rt => decide (rt.vpcId = vpcId) && containsSub rt.nameTag "private"))
  have hloopSub := deleteRoutesLoop_spec env region peerCIDR
    (world.filter (fun rt =>
      decide (rt.vpcId = vpcId) && rt.subnetAssociations.any subnetIds.contains))
  refine ⟨⟨?_, ?_⟩, ?_, ?_⟩
  · rw [hspecPriv.1]
    exact hloopPriv.1
  · intro hall
    rw [hspecPriv.2, hloopPriv.2 hall]
  · rw [hspecSub.1]
    exact hloopSub.1
  · intro hall
    rw [hspecSub.2, hloopSub.2 hall]

/-! ## C1: the teardown is a fixed linear sequence -/

theorem step_bind_cases {α β : Type} (s : Step α) (f : α → Step β) :
    (∃ m, s.2 = Except.error m ∧ s >>= f = (s.1, Except.error m)) ∨
    (∃ a, s.2 = Except.ok a ∧ s >>= f = (s.1 ++ (f a).1, (f a).2)) := by
  rcases s with ⟨evs, r⟩
  cases r with
  | error m => exact Or.inl ⟨m, rfl, rfl⟩
  | ok a => exact Or.inr ⟨a, rfl, rfl⟩

@[simp] theorem callFatal_events {α : Type} (e : Event) (r : Except AwsErr α) (m : String) :
    (callFatal e r m).1 = [e] := by
  cases r <;> rfl

theorem onlyKind_singleton {p : Event → Bool} {e : Event} (h : p e = true) :
    OnlyKind p [e] := by
  intro ev hev
  rcases List.mem_singleton.mp hev with h'
  subst h'
  exact h

/-- All events of the peering-connection teardown are peering events. -/
theorem deleteVpcPeeringConnection_onlyKind (env : AwsEnv) (r v1 v2 : String) :
    OnlyKind Event.isPeeringTeardown (deleteVpcPeeringConnection env r v1 v2).1 := by
  cases hpc : env.peeringConnections r with
  | error e =>
    simp [deleteVpcPeeringConnection, hpc, OnlyKind, Event.isPeeringTeardown]
  | ok world =>
    cases hf : world.filter
        (fun p => (peeringFilters v1 v2).all fun f => peeringMatchesFilter f p) with
    | nil =>
      simp [deleteVpcPeeringConnection, hpc, hf, OnlyKind, Event.isPeeringTeardown]
    | cons pcx rest =>
      cases hd : env.deletePeering r pcx.vpcPeeringConnectionId with
      | error e =>
        simp [deleteVpcPeeringConnection, hpc, hf, hd, OnlyKind, Event.isPeeringTeardown]
      | ok a =>
        cases hwp : env.waitPeeringDeleted r pcx.vpcPeeringConnectionId with
        | error e =>
          simp [deleteVpcPeeringConnection, hpc, hf, hd, hwp, OnlyKind,
            Event.isPeeringTeardown]
        | ok b =>
          simp [deleteVpcPeeringConnection, hpc, hf, hd, hwp, OnlyKind,
            Event.isPeeringTeardown]

theorem runDeletePeering_events (env : AwsEnv) (r v1 v2 : String) :
    (runDeletePeering env r v1 v2).1 = (deleteVpcPeeringConnection env r v1 v2).1 := by
  unfold runDeletePeering
  split <;> rename_i heq <;> rw [heq]

theorem runDeletePeering_onlyKind (env : AwsEnv) (r v1 v2 : String) :
    OnlyKind Event.isPeeringTeardown (runDeletePeering env r v1 v2).1 := by
  rw [runDeletePeering_events]
  exact deleteVpcPeeringConnection_onlyKind env r v1 v2

/-- All events of the route-deletion loop are route events. -/
theorem deleteRoutesLoop_onlyKind (env : AwsEnv) (r c : String) :
    ∀ tables, OnlyKind Event.isRouteTeardown (deleteRoutesLoop env r c tables).1 := by
  intro tables
  induction tables with
  | nil => simp [deleteRoutesLoop, OnlyKind]
  | cons rt rest ih =>
    unfold deleteRoutesLoop
    split
    · intro ev hev
      rcases List.mem_cons.mp hev with h | h
      · subst h; rfl
      · exact ih ev h
    · split
      · intro ev hev
        rcases List.mem_cons.mp hev with h | h
        · subst h; rfl
        · exact ih ev h
      · simp [OnlyKind, Event.isRouteTeardown]

/-- All events of a route-deletion call are route events. -/
theorem runDeleteRoutes_onlyKind (env : AwsEnv) (r v c m : String) (extras : List EC2Filter) :
    OnlyKind Event.isRouteTeardown (runDeleteRoutes env r v c extras m).1 := by
  cases hrt : env.routeTables r with
  | error e =>
    simp [runDeleteRoutes, deleteRouteFromRouteTables, hrt, OnlyKind, Event.isRouteTeardown]
  | ok world =>
    cases hloop : deleteRoutesLoop env r c (world.filter (fun rt =>
        (EC2Filter.mk "vpc-id" [v] :: extras).all fun f => routeTableMatchesFilter f rt)) with
    | mk evs res =>
      have honly := deleteRoutesLoop_onlyKind env r c (world.filter (fun rt =>
        (EC2Filter.mk "vpc-id" [v] :: extras).all fun f => routeTableMatchesFilter f rt))
      rw [hloop] at honly
      have hdescribe : ∀ ev ∈ Event.describeRouteTables r (EC2Filter.mk "vpc-id" [v] :: extras)
          :: evs, Event.isRouteTeardown ev = true := by
        intro ev hev
        rcases List.mem_cons.mp hev with h | h
        · subst h; rfl
        · exact honly ev h
      cases res with
      | ok a =>
        have hh : runDeleteRoutes env r v c extras m =
            (Event.describeRouteTables r (EC2Filter.mk "vpc-id" [v] :: extras) :: evs,
              Except.ok ()) := by
          simp only [runDeleteRoutes, deleteRouteFromRouteTables, hrt]
          rw [hloop]
        rw [hh]
        exact hdescribe
      | error mm =>
        have hh : runDeleteRoutes env r v c extras m =
            (Event.describeRouteTables r (EC2Filter.mk "vpc-id" [v] :: extras) :: evs,
              Except.error mm) := by
          simp only [runDeleteRoutes, deleteRouteFromRouteTables, hrt]
          rw [hloop]
        rw [hh]
        exact hdescribe

/-- All events of the SG step are revoke events. -/
theorem sgStep_onlyKind (env : AwsEnv) (aR eR wSG dSG eC aC : String) :
    OnlyKind Event.isSgRevoke (sgStep env aR eR wSG dSG eC aC).1 := by
  by_cases h : aR = eR
  · have heq : sgStep env aR eR wSG dSG eC aC =
        (callTolerate (Event.revokeIngressFromSG aR wSG dSG)
          (env.revokeIngressFromSG aR wSG dSG) "InvalidPermission.NotFound"
          "Failed to revoke access from the endpoint VPC's default SG to the associated VPC's worker SG"
        >>= fun _ =>
        callTolerate (Event.revokeIngressFromSG eR dSG wSG)
          (env.revokeIngressFromSG eR dSG wSG) "InvalidPermission.NotFound"
          "Failed to revoke access from the associated VPC's worker SG to the endpoint VPC's default SG") := by
      simp [sgStep, h]
    rw [heq]
    intro ev hev
    rcases (twoTolerate_spec _ _ _ _ _ _ _).2.2 ev hev with h' | h' <;> subst h' <;> rfl
  · have heq : sgStep env aR eR wSG dSG eC aC =
        (callTolerate (Event.revokeIngressFromCIDR aR wSG eC)
          (env.revokeIngressFromCIDR aR wSG eC) "InvalidPermission.NotFound"
          "Failed to revoke access from the endpoint VPC's CIDR block to the associated VPC's worker SG"
        >>= fun _ =>
        callTolerate (Event.revokeIngressFromCIDR eR dSG aC)
          (env.revokeIngressFromCIDR eR dSG aC) "InvalidPermission.NotFound"
          "Failed to revoke access from the associated VPC's CIDR block to the endpoint VPC's default SG") := by
      simp [sgStep, h]
    rw [heq]
    intro ev hev
    rcases (twoTolerate_spec _ _ _ _ _ _ _).2.2 ev hev with h' | h' <;> subst h' <;> rfl

theorem onlyKind_pair {p : Event → Bool} {e1 e2 : Event}
    (h1 : p e1 = true) (h2 : p e2 = true) : OnlyKind p [e1, e2] := by
  intro ev hev
  rcases List.mem_cons.mp hev with h | h
  · subst h; exact h1
  · rcases List.mem_singleton.mp h with h'
    subst h'
    exact h2

/-- Each loop iteration of the remove command's `Run` performs, in order:
CIDR reads, the peering-connection teardown, the route deletions, the
worker-SG read, the SG revocations. -/
theorem processAssociatedVpc_segDecomp (env : AwsEnv) (eId eR dSG : String)
    (subnets : List String) (vpc : AWSAssociatedVPC) :
    SegDecomp (processAssociatedVpc env eId eR dSG subnets vpc).1 := by
  cases h1 : env.cidrOf vpc.awsPrivateLinkVPC.region vpc.awsPrivateLinkVPC.vpcId with
  | error err1 =>
    have ht : (processAssociatedVpc env eId eR dSG subnets vpc).1 =
        [Event.getCidr vpc.awsPrivateLinkVPC.region vpc.awsPrivateLinkVPC.vpcId] := by
      simp [processAssociatedVpc, callFatal, h1]
    rw [ht]
    exact ⟨[Event.getCidr vpc.awsPrivateLinkVPC.region vpc.awsPrivateLinkVPC.vpcId],
      [], [], [], [], by simp, onlyKind_singleton rfl, onlyKind_nil, onlyKind_nil,
      onlyKind_nil, onlyKind_nil⟩
  | ok c1 =>
    cases h2 : env.cidrOf eR eId with
    | error err2 =>
      have ht : (processAssociatedVpc env eId eR dSG subnets vpc).1 =
          [Event.getCidr vpc.awsPrivateLinkVPC.region vpc.awsPrivateLinkVPC.vpcId,
           Event.getCidr eR eId] := by
        simp [processAssociatedVpc, callFatal, h1, h2]
      rw [ht]
      exact ⟨[Event.getCidr vpc.awsPrivateLinkVPC.region vpc.awsPrivateLinkVPC.vpcId,
        Event.getCidr eR eId], [], [], [], [], by simp, onlyKind_pair rfl rfl,
        onlyKind_nil, onlyKind_nil, onlyKind_nil, onlyKind_nil⟩
    | ok c2 =>
      cases hp : runDeletePeering env vpc.awsPrivateLinkVPC.region
          vpc.awsPrivateLinkVPC.vpcId eId with
      | mk pevs pres =>
        have hponly : OnlyKind Event.isPeeringTeardown pevs := by
          have := runDeletePeering_onlyKind env vpc.awsPrivateLinkVPC.region
            vpc.awsPrivateLinkVPC.vpcId eId
          rw [hp] at this
          exact this
        cases pres with
        | error pm =>
          have ht : (processAssociatedVpc env eId eR dSG subnets vpc).1 =
              Event.getCidr vpc.awsPrivateLinkVPC.region vpc.awsPrivateLinkVPC.vpcId ::
                Event.getCidr eR eId :: pevs := by
            simp [processAssociatedVpc, callFatal, h1, h2, hp]
          rw [ht]
          exact ⟨[Event.getCidr vpc.awsPrivateLinkVPC.region vpc.awsPrivateLinkVPC.vpcId,
            Event.getCidr eR eId], pevs, [], [], [], by simp, onlyKind_pair rfl rfl,
            hponly, onlyKind_nil, onlyKind_nil, onlyKind_nil⟩
        | ok pu =>
          cases pu
          cases hr1 : runDeleteRoutes env vpc.awsPrivateLinkVPC.region
              vpc.awsPrivateLinkVPC.vpcId c2 [EC2Filter.mk "tag:Name" ["*private*"]]
              "Failed to delete route from private route tables of the associated VPC" with
          | mk r1evs r1res =>
            have hr1only : OnlyKind Event.isRouteTeardown r1evs := by
              have := runDeleteRoutes_onlyKind env vpc.awsPrivateLinkVPC.region
                vpc.awsPrivateLinkVPC.vpcId c2
                "Failed to delete route from private route tables of the associated VPC"
                [EC2Filter.mk "tag:Name" ["*private*"]]
              rw [hr1] at this
              exact this
            cases r1res with
            | error m1 =>
              have ht : (processAssociatedVpc env eId eR dSG subnets vpc).1 =
                  Event.getCidr vpc.awsPrivateLinkVPC.region vpc.awsPrivateLinkVPC.vpcId ::
                    Event.getCidr eR eId :: (pevs ++ r1evs) := by
                simp [processAssociatedVpc, callFatal, h1, h2, hp, hr1]
              rw [ht]
              exact ⟨[Event.getCidr vpc.awsPrivateLinkVPC.region vpc.awsPrivateLinkVPC.vpcId,
                Event.getCidr eR eId], pevs, r1evs, [], [], by simp, onlyKind_pair rfl rfl,
                hponly, hr1only, onlyKind_nil, onlyKind_nil⟩
            | ok r1u =>
              cases r1u
              cases hr2 : runDeleteRoutes env eR eId c1
                  [EC2Filter.mk "association.subnet-id" subnets]
                  "Failed to delete route from route tables of the endpoint subnets" with
              | mk r2evs r2res =>
                have hr2only : OnlyKind Event.isRouteTeardown r2evs := by
                  have := runDeleteRoutes_onlyKind env eR eId c1
                    "Failed to delete route from route tables of the endpoint subnets"
                    [EC2Filter.mk "association.subnet-id" subnets]
                  rw [hr2] at this
                  exact this
                cases r2res with
                | error m2 =>
                  have ht : (processAssociatedVpc env eId eR dSG subnets vpc).1 =
                      Event.getCidr vpc.awsPrivateLinkVPC.region
                          vpc.awsPrivateLinkVPC.vpcId ::
                        Event.getCidr eR eId :: (pevs ++ (r1evs ++ r2evs)) := by
                    simp [processAssociatedVpc, callFatal, h1, h2, hp, hr1, hr2]
                  rw [ht]
                  exact ⟨[Event.getCidr vpc.awsPrivateLinkVPC.region
                    vpc.awsPrivateLinkVPC.vpcId, Event.getCidr eR eId], pevs,
                    r1evs ++ r2evs, [], [], by simp, onlyKind_pair rfl rfl, hponly,
                    onlyKind_append hr1only hr2only, onlyKind_nil, onlyKind_nil⟩
                | ok r2u =>
                  cases r2u
                  cases h6 : env.workerSGOf vpc.awsPrivateLinkVPC.region
                      vpc.awsPrivateLinkVPC.vpcId with
                  | error err6 =>
                    have ht : (processAssociatedVpc env eId eR dSG subnets vpc).1 =
                        Event.getCidr vpc.awsPrivateLinkVPC.region
                            vpc.awsPrivateLinkVPC.vpcId ::
                          Event.getCidr eR eId ::
                            (pevs ++ (r1evs ++ (r2evs ++
                              [Event.getWorkerSG vpc.awsPrivateLinkVPC.region
                                vpc.awsPrivateLinkVPC.vpcId]))) := by
                      simp [processAssociatedVpc, callFatal, h1, h2, hp, hr1, hr2, h6]
                    rw [ht]
                    exact ⟨[Event.getCidr vpc.awsPrivateLinkVPC.region
                      vpc.awsPrivateLinkVPC.vpcId, Event.getCidr eR eId], pevs,
                      r1evs ++ r2evs,
                      [Event.getWorkerSG vpc.awsPrivateLinkVPC.region
                        vpc.awsPrivateLinkVPC.vpcId], [], by simp, onlyKind_pair rfl rfl,
                      hponly, onlyKind_append hr1only hr2only, onlyKind_singleton rfl,
                      onlyKind_nil⟩
                  | ok wSG =>
                    have ht : (processAssociatedVpc env eId eR dSG subnets vpc).1 =
                        Event.getCidr vpc.awsPrivateLinkVPC.region
                            vpc.awsPrivateLinkVPC.vpcId ::
                          Event.getCidr eR eId ::
                            (pevs ++ (r1evs ++ (r2evs ++
                              (Event.getWorkerSG vpc.awsPrivateLinkVPC.region
                                  vpc.awsPrivateLinkVPC.vpcId ::
                                (sgStep env vpc.awsPrivateLinkVPC.region eR wSG dSG
                                  c2 c1).1)))) := by
                      simp [processAssociatedVpc, callFatal, h1, h2, hp, hr1, hr2, h6]
                    rw [ht]
                    exact ⟨[Event.getCidr vpc.awsPrivateLinkVPC.region
                      vpc.awsPrivateLinkVPC.vpcId, Event.getCidr eR eId], pevs,
                      r1evs ++ r2evs,
                      [Event.getWorkerSG vpc.awsPrivateLinkVPC.region
                        vpc.awsPrivateLinkVPC.vpcId],
                      (sgStep env vpc.awsPrivateLinkVPC.region eR wSG dSG c2 c1).1,
                      by simp, onlyKind_pair rfl rfl, hponly,
                      onlyKind_append hr1only hr2only, onlyKind_singleton rfl,
                      sgStep_onlyKind env vpc.awsPrivateLinkVPC.region eR wSG dSG c2 c1⟩

/-- The loop over the associated VPCs: its trace is a concatenation of
per-VPC blocks, each with the fixed segment order; on success the blocks
are exactly the per-VPC traces, one per associated VPC of the
configuration, in configuration order. -/
theorem processAll_blocks (env : AwsEnv) (eId eR dSG : String) (subnets : List String) :
    ∀ vpcs : List AWSAssociatedVPC,
      ∃ blocks : List (List Event),
        (processAll env eId eR dSG subnets vpcs).1 = blocks.flatten
        ∧ (∀ b ∈ blocks, SegDecomp b)
        ∧ ((processAll env eId eR dSG subnets vpcs).2 = Except.ok () →
            blocks = vpcs.map
              (fun v => (processAssociatedVpc env eId eR dSG subnets v).1)) := by
  intro vpcs
  induction vpcs with
  | nil =>
    refine ⟨[], by simp [processAll], ?_, ?_⟩
    · intro b hb; cases hb
    · intro _; rfl
  | cons v rest ih =>
    rcases ih with ⟨blocks, hjoin, hdecomp, hmap⟩
    rcases step_bind_cases (processAssociatedVpc env eId eR dSG subnets v)
        (fun _ => processAll env eId eR dSG subnets rest) with
      ⟨m, hm, heq⟩ | ⟨a, ha, heq⟩
    · refine ⟨[(processAssociatedVpc env eId eR dSG subnets v).1], ?_, ?_, ?_⟩
      · show (processAll env eId eR dSG subnets (v :: rest)).1 = _
        unfold processAll
        rw [heq]
        simp
      · intro b hb
        rcases List.mem_singleton.mp hb with h'
        subst h'
        exact processAssociatedVpc_segDecomp env eId eR dSG subnets v
      · intro hok
        exfalso
        have : (processAll env eId eR dSG subnets (v :: rest)).2 = Except.error m := by
          show ((processAssociatedVpc env eId eR dSG subnets v) >>= _).2 = _
          rw [heq]
        rw [this] at hok
        cases hok
    · refine ⟨(processAssociatedVpc env eId eR dSG subnets v).1 :: blocks, ?_, ?_, ?_⟩
      · show (processAll env eId eR dSG subnets (v :: rest)).1 = _
        unfold processAll
        rw [heq]
        simp [hjoin]
      · intro b hb
        rcases List.mem_cons.mp hb with h | h
        · subst h
          exact processAssociatedVpc_segDecomp env eId eR dSG subnets v
        · exact hdecomp b h
      · intro hok
        have hrest : (processAll env eId eR dSG subnets rest).2 = Except.ok () := by
          have : (processAll env eId eR dSG subnets (v :: rest)).2 =
              (processAll env eId eR dSG subnets rest).2 := by
            show ((processAssociatedVpc env eId eR dSG subnets v) >>= _).2 = _
            rw [heq]
          rw [this] at hok
          exact hok
        rw [List.map_cons, hmap hrest]

/-- Events of all five kinds of the loop segments are not the HiveConfig
write-back. -/
theorem not_update_of_segKind (e : Event)
    (h : Event.isRead e = true ∨ Event.isPeeringTeardown e = true ∨
      Event.isRouteTeardown e = true ∨ Event.isSgRevoke e = true) :
    Event.isUpdate e = false := by
  cases e <;> simp [Event.isUpdate] <;>
    simp [Event.isRead, Event.isPeeringTeardown, Event.isRouteTeardown,
      Event.isSgRevoke] at h

/-- A segment-decomposed block contains no write-back event. -/
theorem segDecomp_no_update {b : List Event} (hd : SegDecomp b) :
    ∀ e ∈ b, Event.isUpdate e = false := by
  rcases hd with ⟨r1, pe, rt, r2, sg, heq, k1, k2, k3, k4, k5⟩
  subst heq
  intro e he
  rcases List.mem_append.mp he with h | h5
  rcases List.mem_append.mp h with h | h4
  rcases List.mem_append.mp h with h | h3
  rcases List.mem_append.mp h with h1 | h2
  · exact not_update_of_segKind e (Or.inl (k1 e h1))
  · exact not_update_of_segKind e (Or.inr (Or.inl (k2 e h2)))
  · exact not_update_of_segKind e (Or.inr (Or.inr (Or.inl (k3 e h3))))
  · exact not_update_of_segKind e (Or.inl (k4 e h4))
  · exact not_update_of_segKind e (Or.inr (Or.inr (Or.inr (k5 e h5))))

/-- C1: on every successful run of the remove command whose options come
from a configuration in which the endpoint VPC was found, the trace is the
default-SG read, followed by one block per associated VPC in configuration
order — each block a fixed linear sequence: peering-connection deletion,
then route deletions in both VPCs, then SG-ingress revocations — and only
after every associated VPC has been processed is the endpoint VPC removed
from the configuration and the configuration written back, exactly once,
as the final event. -/
theorem removeRun_sequence (env : AwsEnv) (kube : KubeEnv) (cfg : HiveConfig)
    (vpcIdArg : String) (o : RemoveOptions)
    (hc : complete cfg vpcIdArg = some o)
    (h : (runRemove env kube o).2 = Except.ok ()) :
    ∃ (defaultSG : String) (blocks : List (List Event)),
      env.defaultSGOf o.endpointVpcRegion o.endpointVpcId = Except.ok defaultSG
      ∧ (runRemove env kube o).1 =
          Event.getDefaultSG o.endpointVpcRegion o.endpointVpcId ::
            (blocks.flatten ++ [Event.updateHiveConfig (removedConfig o)])
      ∧ blocks = o.awsPrivateLink.associatedVPCs.map
          (fun v => (processAssociatedVpc env o.endpointVpcId o.endpointVpcRegion defaultSG
            o.endpointSubnetIds v).1)
      ∧ (∀ b ∈ blocks, SegDecomp b)
      ∧ (runRemove env kube o).1.countP (fun e => Event.isUpdate e) = 1 := by
  cases hd : env.defaultSGOf o.endpointVpcRegion o.endpointVpcId with
  | error errd =>
    exfalso
    have : (runRemove env kube o).2 = Except.error
        "Failed to get default SG of the endpoint VPC" := by
      simp [runRemove, callFatal, hd]
    rw [this] at h
    cases h
  | ok dSG =>
    rcases step_bind_cases
        (processAll env o.endpointVpcId o.endpointVpcRegion dSG o.endpointSubnetIds
          o.awsPrivateLink.associatedVPCs)
        (fun _ => removeEndpointVpcStep kube o) with
      ⟨m, hm, heq⟩ | ⟨a, ha, heq⟩
    · exfalso
      have : (runRemove env kube o).2 = Except.error m := by
        simp [runRemove, callFatal, hd, heq]
      rw [this] at h
      cases h
    · cases a
      have hrem : (removeEndpointVpcStep kube o).2 = Except.ok () := by
        have hrun2 : (runRemove env kube o).2 = (removeEndpointVpcStep kube o).2 := by
          simp [runRemove, callFatal, hd, heq]
        rw [← hrun2]
        exact h
      have hremT : removeEndpointVpcStep kube o =
          ([Event.updateHiveConfig (removedConfig o)], Except.ok ()) := by
        unfold removeEndpointVpcStep
        cases hu : kube.updateHiveConfig (removedConfig o) with
        | ok u => rfl
        | error eu =>
          exfalso
          rw [removeEndpointVpcStep, hu] at hrem
          cases hrem
      rcases processAll_blocks env o.endpointVpcId o.endpointVpcRegion dSG
          o.endpointSubnetIds o.awsPrivateLink.associatedVPCs with
        ⟨blocks, hjoin, hdecomp, hmap⟩
      have htrace : (runRemove env kube o).1 =
          Event.getDefaultSG o.endpointVpcRegion o.endpointVpcId ::
            (blocks.flatten ++ [Event.updateHiveConfig (removedConfig o)]) := by
        have : (runRemove env kube o).1 =
            Event.getDefaultSG o.endpointVpcRegion o.endpointVpcId ::
              ((processAll env o.endpointVpcId o.endpointVpcRegion dSG o.endpointSubnetIds
                o.awsPrivateLink.associatedVPCs).1 ++ (removeEndpointVpcStep kube o).1) := by
          simp [runRemove, callFatal, hd, heq]
        rw [this, hjoin, hremT]
      refine ⟨dSG, blocks, rfl, htrace, hmap ha, hdecomp, ?_⟩
      have hzero : blocks.flatten.countP (fun e => Event.isUpdate e) = 0 := by
        rw [List.countP_eq_zero]
        intro e he
        rcases List.mem_flatten.mp he with ⟨b, hb, heb⟩
        simp [segDecomp_no_update (hdecomp b hb) e heb]
      rw [htrace, List.countP_cons, List.countP_append, hzero]
      rfl

/-! ## Concrete witness world -/

/-- Route tables: a private-tagged and a public-tagged table of the
associated VPC, and an endpoint-VPC table associated with `subnet-1`. -/
def routeWorld : List RouteTable :=
  [⟨"rtb-priv", "vpc-a", "cluster-private-1", []⟩,
   ⟨"rtb-pub", "vpc-a", "cluster-public-1", []⟩,
   ⟨"rtb-endpoint", "vpc-e", "endpoint-rtb", ["subnet-1"]⟩]

/-- An environment on which every call succeeds. -/
def removeEnv : AwsEnv :=
  { peeringEnvPresent with routeTables := fun _ => Except.ok routeWorld }

def goodPL : AWSPrivateLinkConfig :=
  { associatedVPCs := [⟨⟨"vpc-a", "us-east-1"⟩⟩],
    endpointVPCInventory := [⟨⟨"vpc-e", "us-east-1"⟩, [⟨"subnet-1", "use1-az1"⟩]⟩] }

def goodCfg : HiveConfig := ⟨some goodPL⟩

def goodOpts : RemoveOptions :=
  { awsPrivateLink := goodPL
    endpointVpcId := "vpc-e"
    endpointVpcRegion := "us-east-1"
    endpointVpcIdx := 0
    endpointSubnetIds := ["subnet-1"] }

def goodKube : KubeEnv :=
  { getHiveConfig := Except.ok goodCfg
    listHubAcctSecrets := Except.ok []
    deleteSecret := fun _ => Except.ok ()
    updateHiveConfig := fun _ => Except.ok () }

theorem removeRun_sequence_witness :
    complete goodCfg "vpc-e" = some goodOpts
    ∧ (runRemove removeEnv goodKube goodOpts).2 = Except.ok ()
    ∧ ∃ (defaultSG : String) (blocks : List (List Event)),
      removeEnv.defaultSGOf goodOpts.endpointVpcRegion goodOpts.endpointVpcId =
        Except.ok defaultSG
      ∧ (runRemove removeEnv goodKube goodOpts).1 =
          Event.getDefaultSG goodOpts.endpointVpcRegion goodOpts.endpointVpcId ::
            (blocks.flatten ++ [Event.updateHiveConfig (removedConfig goodOpts)])
      ∧ blocks = goodOpts.awsPrivateLink.associatedVPCs.map
          (fun v => (processAssociatedVpc removeEnv goodOpts.endpointVpcId
            goodOpts.endpointVpcRegion defaultSG goodOpts.endpointSubnetIds v).1)
      ∧ (∀ b ∈ blocks, SegDecomp b)
      ∧ (runRemove removeEnv goodKube goodOpts).1.countP (fun e => Event.isUpdate e) = 1 :=
  ⟨rfl, rfl, removeRun_sequence removeEnv goodKube goodCfg "vpc-e" goodOpts rfl rfl⟩

/-! ## C5 witness -/

theorem routeDeletion_on_filtered_tables_witness :
    (runDeleteRoutes removeEnv "us-east-1" "vpc-a" "10.0.0.0/16"
        [EC2Filter.mk "tag:Name" ["*private*"]]
        "Failed to delete route from private route tables of the associated VPC").1 =
      [Event.describeRouteTables "us-east-1"
          (EC2Filter.mk "vpc-id" ["vpc-a"] :: [EC2Filter.mk "tag:Name" ["*private*"]]),
       Event.deleteRoute "us-east-1" "rtb-priv" "10.0.0.0/16"]
    ∧ (runDeleteRoutes removeEnv "us-east-1" "vpc-e" "10.0.0.0/16"
        [EC2Filter.mk "association.subnet-id" ["subnet-1"]]
        "Failed to delete route from route tables of the endpoint subnets").1 =
      [Event.describeRouteTables "us-east-1"
          (EC2Filter.mk "vpc-id" ["vpc-e"] ::
            [EC2Filter.mk "association.subnet-id" ["subnet-1"]]),
       Event.deleteRoute "us-east-1" "rtb-endpoint" "10.0.0.0/16"] := by
  constructor
  · exact ((routeDeletion_on_filtered_tables removeEnv "us-east-1" "vpc-a" "10.0.0.0/16"
      ["subnet-1"] routeWorld rfl).1.2 (by decide)).trans (by rfl)
  · exact ((routeDeletion_on_filtered_tables removeEnv "us-east-1" "vpc-e" "10.0.0.0/16"
      ["subnet-1"] routeWorld rfl).2.2 (by decide)).trans (by rfl)

/-! ## C2: error handling across the commands -/

def envWithCidrError (e : AwsErr) : AwsEnv :=
  { removeEnv with cidrOf := fun _ _ => Except.error e }

def envWithDefaultSGError (e : AwsErr) : AwsEnv :=
  { removeEnv with defaultSGOf := fun _ _ => Except.error e }

def envWithWorkerSGError (e : AwsErr) : AwsEnv :=
  { removeEnv with workerSGOf := fun _ _ => Except.error e }

def envWithPeeringDescribeError (e : AwsErr) : AwsEnv :=
  { removeEnv with peeringConnections := fun _ => Except.error e }

def envWithPeeringDeleteError (e : AwsErr) : AwsEnv :=
  { removeEnv with deletePeering := fun _ _ => Except.error e }

def envWithPeeringWaitError (e : AwsErr) : AwsEnv :=
  { removeEnv with waitPeeringDeleted := fun _ _ => Except.error e }

def envWithRouteDescribeError (e : AwsErr) : AwsEnv :=
  { removeEnv with routeTables := fun _ => Except.error e }

def envWithRouteDeleteError (e : AwsErr) : AwsEnv :=
  { removeEnv with deleteRoute := fun _ _ _ => Except.error e }

def envWithRevokeSGError (e : AwsErr) : AwsEnv :=
  { removeEnv with revokeIngressFromSG := fun _ _ _ => Except.error e }

def envWithRevokeCIDRError (e : AwsErr) : AwsEnv :=
  { removeEnv with revokeIngressFromCIDR := fun _ _ _ => Except.error e }

def kubeWithUpdateError (m : String) : KubeEnv :=
  { goodKube with updateHiveConfig := fun _ => Except.error m }

/-- Cross-region options: the associated VPC lives in `us-west-2`. -/
def crossOpts : RemoveOptions :=
  { goodOpts with
    awsPrivateLink := { goodPL with associatedVPCs := [⟨⟨"vpc-a", "us-west-2"⟩⟩] } }

def disableKubeListError (m : String) : KubeEnv :=
  { getHiveConfig := Except.ok ⟨none⟩
    listHubAcctSecrets := Except.error m
    deleteSecret := fun _ => Except.ok ()
    updateHiveConfig := fun _ => Except.ok () }

def disableKubeDeleteError (m : String) : KubeEnv :=
  { disableKubeListError m with
    listHubAcctSecrets := Except.ok ["private-link-hub-acct-creds"]
    deleteSecret := fun _ => Except.error m }

def disableKubeGetError (m : String) : KubeEnv :=
  { disableKubeListError m with getHiveConfig := Except.error m }

def disableKubeUpdateError (m : String) : KubeEnv :=
  { disableKubeListError m with
    listHubAcctSecrets := Except.ok []
    updateHiveConfig := fun _ => Except.error m }

/-- Counterexample to C2 as stated: in the disable command, an error
listing the Hub-account credentials Secrets — not one of the two
"resource not found" special cases — is logged and tolerated: the run
continues to the HiveConfig update and finishes successfully instead of
terminating the process. -/
theorem errorHandling_counterexample :
    (runDisable (disableKubeListError "RequestTimeout")).2 = Except.ok ()
    ∧ (runDisable (disableKubeListError "RequestTimeout")).1 =
        [Event.getHiveConfig, Event.listHubAcctSecrets,
         Event.updateHiveConfig ⟨none⟩]
    ∧ (runDisable (disableKubeDeleteError "RequestTimeout")).2 = Except.ok ()
    ∧ (runDisable (disableKubeDeleteError "RequestTimeout")).1 =
        [Event.getHiveConfig, Event.listHubAcctSecrets,
         Event.deleteSecret "private-link-hub-acct-creds",
         Event.updateHiveConfig ⟨none⟩] :=
  ⟨rfl, rfl, rfl, rfl⟩

theorem revokeSG_tolerance_iff (e : AwsErr) :
    ((runRemove (envWithRevokeSGError e) goodKube goodOpts).2 = Except.ok () ↔
      e.isCode "InvalidPermission.NotFound" = true) := by
  cases e with
  | generic msg =>
    exact iff_of_false (fun hh => Except.noConfusion hh) (fun hh => Bool.noConfusion hh)
  | aws c msg =>
    by_cases hc : c = "InvalidPermission.NotFound"
    · subst hc
      exact iff_of_true rfl rfl
    · have hb : AwsErr.isCode (AwsErr.aws c msg) "InvalidPermission.NotFound" = false := by
        simp [AwsErr.isCode, hc]
      refine iff_of_false ?_ (fun hh => by rw [hb] at hh; exact Bool.noConfusion hh)
      intro hh
      rw [show (runRemove (envWithRevokeSGError (AwsErr.aws c msg)) goodKube goodOpts).2
          = Except.error "Failed to revoke access from the endpoint VPC's default SG to the associated VPC's worker SG" from ?_] at hh
      · exact Except.noConfusion hh
      · simp [runRemove, processAll, processAssociatedVpc, callFatal, runDeletePeering,
          deleteVpcPeeringConnection, peeringFilters, peeringMatchesFilter, runDeleteRoutes,
          deleteRouteFromRouteTables, deleteRoutesLoop, routeTableMatchesFilter,
          matchesNameGlob, containsSub, hasSubList, leadsWith, sgStep, callTolerate,
          removeEndpointVpcStep, envWithRevokeSGError, removeEnv, peeringEnvPresent,
          goodKube, goodOpts, goodPL, routeWorld, hb, tolerableB]

theorem revokeCIDR_tolerance_iff (e : AwsErr) :
    ((runRemove (envWithRevokeCIDRError e) goodKube crossOpts).2 = Except.ok () ↔
      e.isCode "InvalidPermission.NotFound" = true) := by
  cases e with
  | generic msg =>
    exact iff_of_false (fun hh => Except.noConfusion hh) (fun hh => Bool.noConfusion hh)
  | aws c msg =>
    by_cases hc : c = "InvalidPermission.NotFound"
    · subst hc
      exact iff_of_true rfl rfl
    · have hb : AwsErr.isCode (AwsErr.aws c msg) "InvalidPermission.NotFound" = false := by
        simp [AwsErr.isCode, hc]
      refine iff_of_false ?_ (fun hh => by rw [hb] at hh; exact Bool.noConfusion hh)
      intro hh
      rw [show (runRemove (envWithRevokeCIDRError (AwsErr.aws c msg)) goodKube crossOpts).2
          = Except.error "Failed to revoke access from the endpoint VPC's CIDR block to the associated VPC's worker SG" from ?_] at hh
      · exact Except.noConfusion hh
      · simp [runRemove, processAll, processAssociatedVpc, callFatal, runDeletePeering,
          deleteVpcPeeringConnection, peeringFilters, peeringMatchesFilter, runDeleteRoutes,
          deleteRouteFromRouteTables, deleteRoutesLoop, routeTableMatchesFilter,
          matchesNameGlob, containsSub, hasSubList, leadsWith, sgStep, callTolerate,
          removeEndpointVpcStep, envWithRevokeCIDRError, removeEnv, peeringEnvPresent,
          goodKube, crossOpts, goodOpts, goodPL, routeWorld, hb, tolerableB]

theorem routeDelete_tolerance_iff (e : AwsErr) :
    ((runRemove (envWithRouteDeleteError e) goodKube goodOpts).2 = Except.ok () ↔
      e.isCode "InvalidRoute.NotFound" = true) := by
  cases e with
  | generic msg =>
    exact iff_of_false (fun hh => Except.noConfusion hh) (fun hh => Bool.noConfusion hh)
  | aws c msg =>
    by_cases hc : c = "InvalidRoute.NotFound"
    · subst hc
      exact iff_of_true rfl rfl
    · have hb : AwsErr.isCode (AwsErr.aws c msg) "InvalidRoute.NotFound" = false := by
        simp [AwsErr.isCode, hc]
      refine iff_of_false ?_ (fun hh => by rw [hb] at hh; exact Bool.noConfusion hh)
      intro hh
      rw [show (runRemove (envWithRouteDeleteError (AwsErr.aws c msg)) goodKube goodOpts).2
          = Except.error "Failed to delete route from route table rtb-priv" from ?_] at hh
      · exact Except.noConfusion hh
      · simp [runRemove, processAll, processAssociatedVpc, callFatal, runDeletePeering,
          deleteVpcPeeringConnection, peeringFilters, peeringMatchesFilter, runDeleteRoutes,
          deleteRouteFromRouteTables, deleteRoutesLoop, routeTableMatchesFilter,
          matchesNameGlob, containsSub, hasSubList, leadsWith, sgStep, callTolerate,
          removeEndpointVpcStep, envWithRouteDeleteError, removeEnv, peeringEnvPresent,
          goodKube, goodOpts, goodPL, routeWorld, hb, tolerableB]

/-- C2 (amended): "resource not found" is special-cased exactly on the
SG-ingress-revoke (`InvalidPermission.NotFound`) and route-delete
(`InvalidRoute.NotFound`) operations of the remove command — tolerated as
already satisfied, any other error there fatal; every other AWS or
Kubernetes error of the remove command is fatal; and in the disable
command, errors listing or deleting the Hub-account credentials Secrets
are additionally logged and tolerated, while its HiveConfig get and update
errors remain fatal. -/
theorem errorHandling_amended (e : AwsErr) (m : String) :
    (runDisable (disableKubeListError m)).2 = Except.ok ()
    ∧ (runDisable (disableKubeDeleteError m)).2 = Except.ok ()
    ∧ (runDisable (disableKubeGetError m)).2 =
        Except.error "Failed to get HiveConfig/hive"
    ∧ (runDisable (disableKubeUpdateError m)).2 =
        Except.error "Failed to update HiveConfig"
    ∧ ((runRemove (envWithRevokeSGError e) goodKube goodOpts).2 = Except.ok () ↔
        e.isCode "InvalidPermission.NotFound" = true)
    ∧ ((runRemove (envWithRevokeCIDRError e) goodKube crossOpts).2 = Except.ok () ↔
        e.isCode "InvalidPermission.NotFound" = true)
    ∧ ((runRemove (envWithRouteDeleteError e) goodKube goodOpts).2 = Except.ok () ↔
        e.isCode "InvalidRoute.NotFound" = true)
    ∧ (runRemove (envWithDefaultSGError e) goodKube goodOpts).2 =
        Except.error "Failed to get default SG of the endpoint VPC"
    ∧ (runRemove (envWithCidrError e) goodKube goodOpts).2 =
        Except.error "Failed to get CIDR of associated VPC"
    ∧ (runRemove (envWithWorkerSGError e) goodKube goodOpts).2 =
        Except.error "Failed to get worker SG of the associated Hive cluster"
    ∧ (runRemove (envWithPeeringDescribeError e) goodKube goodOpts).2 =
        Except.error "Failed to delete VPC peering connection"
    ∧ (runRemove (envWithPeeringDeleteError e) goodKube goodOpts).2 =
        Except.error "Failed to delete VPC peering connection"
    ∧ (runRemove (envWithPeeringWaitError e) goodKube goodOpts).2 =
        Except.error "Failed to delete VPC peering connection"
    ∧ (runRemove (envWithRouteDescribeError e) goodKube goodOpts).2 =
        Except.error "Failed to delete route from private route tables of the associated VPC"
    ∧ (runRemove removeEnv (kubeWithUpdateError m) goodOpts).2 =
        Except.error "Failed to update HiveConfig" :=
  ⟨rfl, rfl, rfl, rfl, revokeSG_tolerance_iff e, revokeCIDR_tolerance_iff e,
    routeDelete_tolerance_iff e, rfl, rfl, rfl, rfl, rfl, rfl, rfl, rfl⟩

/-! ## C6: removing the endpoint VPC entry from the inventory -/

theorem swapRemove_cons_succ {α : Type} (x : α) (xs : List α) (j : Nat)
    (hne : xs ≠ []) : swapRemove (x :: xs) (j + 1) = x :: swapRemove xs j := by
  obtain ⟨y, ys, rfl⟩ : ∃ y ys, xs = y :: ys := by
    cases xs with
    | nil => exact absurd rfl hne
    | cons y ys => exact ⟨y, ys, rfl⟩
  unfold swapRemove
  rw [List.getLast?_eq_getLast (x :: y :: ys) (by simp),
    List.getLast?_eq_getLast (y :: ys) (by simp),
    List.getLast_cons (by simp : (y :: ys) ≠ [])]
  simp [List.take_succ_cons]

theorem swapRemove_zero_cons {α : Type} (x y : α) (ys : List α) :
    swapRemove (x :: y :: ys) 0 =
      (y :: ys).getLast (by simp) :: (y :: ys).dropLast := by
  unfold swapRemove
  rw [List.getLast?_eq_getLast (x :: y :: ys) (by simp),
    List.getLast_cons (by simp : (y :: ys) ≠ [])]
  simp [List.take_succ_cons, List.dropLast_eq_take]

/-- Go's swap-remove produces a permutation of the list with the entry at
`idx` removed. -/
theorem swapRemove_perm {α : Type} :
    ∀ (l : List α) (idx : Nat), idx < l.length →
      (swapRemove l idx).Perm (l.eraseIdx idx) := by
  intro l
  induction l with
  | nil => intro idx h; exact absurd h (Nat.not_lt_zero idx)
  | cons x xs ih =>
    intro idx hidx
    cases idx with
    | zero =>
      cases xs with
      | nil => rfl
      | cons y ys =>
        rw [swapRemove_zero_cons]
        show ((y :: ys).getLast (by simp) :: (y :: ys).dropLast).Perm (y :: ys)
        have hx := List.dropLast_append_getLast (l := y :: ys) (by simp)
        conv_rhs => rw [← hx]
        exact (List.perm_append_singleton _ _).symm
    | succ j =>
      have hne : xs ≠ [] := by
        intro hh
        subst hh
        simp at hidx
      rw [swapRemove_cons_succ x xs j hne]
      exact List.Perm.cons x (ih j (Nat.lt_of_succ_lt_succ hidx))

/-- Go's swap-remove shortens the list by exactly one. -/
theorem swapRemove_length {α : Type} (l : List α) (idx : Nat) (h : idx < l.length) :
    (swapRemove l idx).length = l.length - 1 := by
  cases l with
  | nil => exact absurd h (Nat.not_lt_zero idx)
  | cons x xs =>
    unfold swapRemove
    rw [List.getLast?_eq_getLast (x :: xs) (by simp)]
    simp

/-- An inventory entry (used to build concrete configurations). -/
def dupEntry : AWSPrivateLinkInventory := ⟨⟨"vpc-dup", "us-east-1"⟩, []⟩

/-- Counterexample to C6 as stated: with the inventory `[e, e]` holding
two identical entries for the requested VPC id, completion finds index 0,
and after the swap-remove an entry with the requested VPC id — equal to
the removed entry — is still present. -/
theorem removeEndpointVpc_counterexample :
    findVpcInInventory "vpc-dup" [dupEntry, dupEntry] = some 0
    ∧ swapRemove [dupEntry, dupEntry] 0 = [dupEntry]
    ∧ dupEntry ∈ swapRemove [dupEntry, dupEntry] 0
    ∧ ∃ entry ∈ swapRemove [dupEntry, dupEntry] 0,
        entry.awsPrivateLinkVPC.vpcId = "vpc-dup" := by
  refine ⟨rfl, rfl, by decide, ⟨dupEntry, by decide, rfl⟩⟩

/-- C6 (amended): for a valid found index, `removeEndpointVpcFromHiveConfig`
shrinks the inventory by exactly one entry; the new inventory is a
permutation of the old inventory with the entry at that index removed (the
former last entry moved into its position); consequently every other entry
is still present, and — provided the entry at that index occurs nowhere
else in the inventory — that entry is no longer present; the configuration
carrying exactly the swap-removed inventory is written back. -/
theorem removeEndpointVpc_amended (inv : List AWSPrivateLinkInventory) (idx : Nat)
    (h : idx < inv.length) :
    (swapRemove inv idx).length = inv.length - 1
    ∧ (swapRemove inv idx).Perm (inv.eraseIdx idx)
    ∧ (∀ entry ∈ inv.eraseIdx idx, entry ∈ swapRemove inv idx)
    ∧ (inv.get ⟨idx, h⟩ ∉ inv.eraseIdx idx → inv.get ⟨idx, h⟩ ∉ swapRemove inv idx)
    ∧ (∀ (kube : KubeEnv) (o : RemoveOptions),
        o.awsPrivateLink.endpointVPCInventory = inv →
        o.endpointVpcIdx = idx →
        kube.updateHiveConfig (removedConfig o) = Except.ok () →
        removeEndpointVpcStep kube o =
          ([Event.updateHiveConfig (removedConfig o)], Except.ok ())
        ∧ (removedConfig o).awsPrivateLink = some
            { o.awsPrivateLink with endpointVPCInventory := swapRemove inv idx }) := by
  refine ⟨swapRemove_length inv idx h, swapRemove_perm inv idx h, ?_, ?_, ?_⟩
  · intro entry hentry
    exact (swapRemove_perm inv idx h).mem_iff.mpr hentry
  · intro hnot hmem
    exact hnot ((swapRemove_perm inv idx h).mem_iff.mp hmem)
  · intro kube o hinv hidx hupd
    constructor
    · unfold removeEndpointVpcStep
      rw [hupd]
    · unfold removedConfig
      rw [hinv, hidx]

def inv3 : List AWSPrivateLinkInventory :=
  [⟨⟨"vpc-e1", "us-east-1"⟩, []⟩, ⟨⟨"vpc-e2", "us-east-1"⟩, []⟩,
   ⟨⟨"vpc-e3", "us-east-1"⟩, []⟩]

def opts3 : RemoveOptions :=
  { awsPrivateLink := { associatedVPCs := [], endpointVPCInventory := inv3 }
    endpointVpcId := "vpc-e1"
    endpointVpcRegion := "us-east-1"
    endpointVpcIdx := 0
    endpointSubnetIds := [] }

theorem removeEndpointVpc_amended_witness :
    (swapRemove inv3 0).length = 2
    ∧ (swapRemove inv3 0).Perm (inv3.eraseIdx 0)
    ∧ removeEndpointVpcStep goodKube opts3 =
        ([Event.updateHiveConfig (removedConfig opts3)], Except.ok ()) := by
  refine ⟨?_, ?_, ?_⟩
  · exact (removeEndpointVpc_amended inv3 0 (by decide)).1
  · exact (removeEndpointVpc_amended inv3 0 (by decide)).2.1
  · exact ((removeEndpointVpc_amended inv3 0 (by decide)).2.2.2.2 goodKube opts3
      rfl rfl rfl).1

/-! ## C7: `ReadManagedDomainsFile` -/

/-- A DNS-management config entry (`hivev1.ManageDNSConfig`); its fields
are irrelevant to the reader's control flow. -/
structure ManageDNSConfig where
  domains : List String
deriving DecidableEq

/-- Embedding of `ReadManagedDomainsFile`: `envVal` is the value of the
managed-domains environment variable (empty when unset), `readFile` the
filesystem and `unmarshal` the JSON parser (both oracles).  The result
models the Go pair: first component `none` is a nil slice, second
component `none` is a nil error. -/
def readManagedDomainsFile (envVal : String)
    (readFile : String → Except String String)
    (unmarshal : String → Except String (List ManageDNSConfig)) :
    Option (List ManageDNSConfig) × Option String :=
  if envVal.length = 0 then (none, none)
  else
    match readFile envVal with
    | Except.error e => (some [], some e)
    | Except.ok fileBytes =>
      match unmarshal fileBytes with
      | Except.error e => (some [], some e)
      | Except.ok domains => (some domains, none)

/-- C7: with the environment variable unset or empty the reader returns
`(nil, nil)`; a read or unmarshal failure yields a non-nil error; and
otherwise the parsed array is returned with a nil error. -/
theorem readManagedDomainsFile_spec (envVal : String)
    (readFile : String → Except String String)
    (unmarshal : String → Except String (List ManageDNSConfig)) :
    (envVal.length = 0 → readManagedDomainsFile envVal readFile unmarshal = (none, none))
    ∧ (∀ e, envVal.length ≠ 0 → readFile envVal = Except.error e →
        (readManagedDomainsFile envVal readFile unmarshal).2 = some e)
    ∧ (∀ s e, envVal.length ≠ 0 → readFile envVal = Except.ok s →
        unmarshal s = Except.error e →
        (readManagedDomainsFile envVal readFile unmarshal).2 = some e)
    ∧ (∀ s domains, envVal.length ≠ 0 → readFile envVal = Except.ok s →
        unmarshal s = Except.ok domains →
        readManagedDomainsFile envVal readFile unmarshal = (some domains, none)) := by
  refine ⟨?_, ?_, ?_, ?_⟩
  · intro h
    simp [readManagedDomainsFile, h]
  · intro e hne hr
    simp [readManagedDomainsFile, hne, hr]
  · intro s e hne hr hu
    simp [readManagedDomainsFile, hne, hr, hu]
  · intro s domains hne hr hu
    simp [readManagedDomainsFile, hne, hr, hu]

def fsOk : String → Except String String := fun _ => Except.ok "[]"

def fsErr : String → Except String String := fun _ => Except.error "open: no such file"

def parseOk : String → Except String (List ManageDNSConfig) := fun _ => Except.ok []

theorem readManagedDomainsFile_spec_witness :
    readManagedDomainsFile "" fsOk parseOk = (none, none)
    ∧ (readManagedDomainsFile "domains.json" fsErr parseOk).2 =
        some "open: no such file"
    ∧ readManagedDomainsFile "domains.json" fsOk parseOk = (some [], none) := by
  refine ⟨?_, ?_, ?_⟩
  · exact (readManagedDomainsFile_spec "" fsOk parseOk).1 rfl
  · exact (readManagedDomainsFile_spec "domains.json" fsErr parseOk).2.1
      "open: no such file" (by decide) rfl
  · exact (readManagedDomainsFile_spec "domains.json" fsOk parseOk).2.2.2
      "[]" [] (by decide) rfl rfl

/-! ## C8: required CLI flags and validation -/

/-- The options of the PowerVS deprovision subcommand. -/
structure PowerVSDeprovisionOptions where
  baseDomain : String
  clusterName : String
  logLevel : String
  infraID : String
  region : String
  zone : String
deriving DecidableEq

/-- Embedding of `powerVSDeprovisionOptions.Validate`: the four checks in
source order, each returning its error when the flag is empty. -/
def powerVSValidate (o : PowerVSDeprovisionOptions) : Option String :=
  if o.region = "" then some "no --region provided, cannot proceed"
  else if o.zone = "" then some "no --zone provided, cannot proceed"
  else if o.baseDomain = "" then some "no --base-domain provided, cannot proceed"
  else if o.clusterName = "" then some "no --cluster-name provided, cannot proceed"
  else none

/-- `disableOptions.Validate`: returns nil unconditionally. -/
def disableValidate : Option String := none

/-- `endpointVPCRemoveOptions.Validate`: returns nil unconditionally. -/
def endpointVpcRemoveValidate : Option String := none

/-- Flags registered by `NewDeprovisionPowerVSCommand`. -/
def powerVSDeprovisionFlagNames : List String :=
  ["loglevel", "base-domain", "cluster-name", "region", "zone"]

/-- Flags registered by `NewDisableAWSPrivateLinkCommand`: none. -/
def disableFlagNames : List String := []

/-- Flags registered by `NewEndpointVPCRemoveCommand`: none (the VPC id is
a positional argument). -/
def endpointVpcRemoveFlagNames : List String := []

/-- Counterexample to C8 as stated: the `disable` and endpoint-VPC
`remove` subcommands register no region/zone/base-domain/cluster-name
flags at all, and their validation succeeds unconditionally — in
particular on an invocation where all four of those values are (vacuously)
empty — instead of returning an error. -/
theorem requiredFlags_counterexample :
    disableValidate = none
    ∧ endpointVpcRemoveValidate = none
    ∧ "region" ∉ disableFlagNames
    ∧ "region" ∉ endpointVpcRemoveFlagNames := ⟨rfl, rfl, by decide, by decide⟩

/-- C8 (amended): the required region, zone, base-domain and cluster-name
flags belong to the PowerVS deprovision subcommand, whose validation
returns an error exactly when one of the four is empty (checked in that
order) and succeeds when all four are non-empty; the `disable` and
endpoint-VPC `remove` subcommands register none of these flags and their
validation always succeeds. -/
theorem requiredFlags_amended (o : PowerVSDeprovisionOptions) :
    (powerVSValidate o = none ↔
      (o.region ≠ "" ∧ o.zone ≠ "" ∧ o.baseDomain ≠ "" ∧ o.clusterName ≠ ""))
    ∧ (o.region = "" → powerVSValidate o = some "no --region provided, cannot proceed")
    ∧ disableValidate = none
    ∧ endpointVpcRemoveValidate = none
    ∧ ("region" ∈ powerVSDeprovisionFlagNames ∧ "zone" ∈ powerVSDeprovisionFlagNames ∧
        "base-domain" ∈ powerVSDeprovisionFlagNames ∧
        "cluster-name" ∈ powerVSDeprovisionFlagNames) := by
  refine ⟨?_, ?_, rfl, rfl, by decide⟩
  · unfold powerVSValidate
    split_ifs with h1 h2 h3 h4 <;> simp_all
  · intro h
    simp [powerVSValidate, h]

def validDeprovisionOpts : PowerVSDeprovisionOptions :=
  ⟨"example.com", "mycluster", "info", "infra-1", "us-east", "us-east-1"⟩

theorem requiredFlags_amended_witness :
    powerVSValidate validDeprovisionOpts = none
    ∧ powerVSValidate { validDeprovisionOpts with region := "" } =
        some "no --region provided, cannot proceed" := by
  constructor
  · exact (requiredFlags_amended validDeprovisionOpts).1.mpr (by decide)
  · exact (requiredFlags_amended { validDeprovisionOpts with region := "" }).2.1 rfl

/-! ## C9: `GetAvailableZonesByInstanceType` -/

/-- One zone of an Alibaba `DescribeAvailableResource` response. -/
structure AvailableZone where
  zoneId : String
  status : String
  statusCategory : String
deriving DecidableEq

/-- The loop's condition: the zone is Available and WithStock. -/
def availableWithStock (z : AvailableZone) : Bool :=
  decide (z.status = "Available") && decide (z.statusCategory = "WithStock")

/-- Embedding of `GetAvailableZonesByInstanceType`: the describe call is
an oracle; on success the loop appends the id of each zone that is
Available and WithStock, in response order. -/
def getAvailableZonesByInstanceType
    (describeResult : Except String (List AvailableZone)) :
    Except String (List String) :=
  match describeResult with
  | Except.error e => Except.error e
  | Except.ok zs =>
    Except.ok (zs.foldl
      (fun zones zone =>
        if availableWithStock zone then zones ++ [zone.zoneId] else zones) [])

theorem zonesFold_eq (zs : List AvailableZone) :
    ∀ acc : List String,
      zs.foldl (fun zones zone =>
          if availableWithStock zone then zones ++ [zone.zoneId] else zones) acc
        = acc ++ (zs.filter availableWithStock).map (fun z => z.zoneId) := by
  induction zs with
  | nil => intro acc; simp
  | cons z rest ih =>
    intro acc
    by_cases hz : availableWithStock z = true
    · simp [hz, ih]
    · simp only [Bool.not_eq_true] at hz
      simp [hz, ih]

/-- C9: for every response, the returned zones are exactly the ids of the
zones whose Status is `Available` and whose StatusCategory is `WithStock`,
in response order; a describe error is returned as `(nil, err)`. -/
theorem getAvailableZonesByInstanceType_spec (e : String) (zs : List AvailableZone) :
    getAvailableZonesByInstanceType (Except.error e) = Except.error e
    ∧ getAvailableZonesByInstanceType (Except.ok zs) =
        Except.ok ((zs.filter availableWithStock).map (fun z => z.zoneId)) := by
  refine ⟨rfl, ?_⟩
  simp [getAvailableZonesByInstanceType, zonesFold_eq]

/-! ## C10: the PowerVS actuator's nil guards -/

/-- `ClusterDeployment.Spec.ClusterMetadata` as the actuator uses it. -/
structure ClusterMetadata where
  infraID : String
deriving DecidableEq

/-- `cd.Spec.Platform.PowerVS`. -/
structure PowerVSPlatform where
  credentialsSecretRefName : String
  region : String
  zone : String
deriving DecidableEq

/-- `pool.Spec.Platform.PowerVS` (`hivev1powervs.MachinePool`). -/
structure PowerVSMachinePoolPlatform where
  memoryGiB : Int
  procType : String
  processors : String
  sysType : String
deriving DecidableEq

structure ClusterDeploymentSpec where
  clusterMetadata : Option ClusterMetadata
  platformPowerVS : Option PowerVSPlatform
deriving DecidableEq

structure ClusterDeployment where
  spec : ClusterDeploymentSpec
deriving DecidableEq

structure MachinePoolSpec where
  platformPowerVS : Option PowerVSMachinePoolPlatform
deriving DecidableEq

structure MachinePool where
  spec : MachinePoolSpec
deriving DecidableEq

/-- What `GenerateMachineSets` passes to `installpowervs.MachineSets`
after the guards: the infra id, the faked install config's region and
zone, and the compute pool's PowerVS platform. -/
structure InstallerMachineSetsInput where
  infraID : String
  region : String
  zone : String
  pool : PowerVSMachinePoolPlatform
deriving DecidableEq

structure MachineSet where
  name : String
  replicas : Int
deriving DecidableEq

/-- Embedding of the PowerVS actuator's `GenerateMachineSets`: the three
nil guards in source order, then the installer call (an oracle).  The
final `Bool` records whether the installer layer was invoked at all; the
guards return before it, so they dereference nothing and call nothing. -/
def generateMachineSets
    (machineSets : InstallerMachineSetsInput → Except String (List MachineSet))
    (cd : ClusterDeployment) (pool : MachinePool) :
    (Option (List MachineSet) × Bool × Option String) × Bool :=
  match cd.spec.clusterMetadata with
  | none => ((none, false, some "ClusterDeployment does not have cluster metadata"), false)
  | some md =>
    match cd.spec.platformPowerVS with
    | none => ((none, false, some "ClusterDeployment is not for PowerVS"), false)
    | some plat =>
      match pool.spec.platformPowerVS with
      | none => ((none, false, some "MachinePool is not for PowerVS"), false)
      | some mp =>
        match machineSets ⟨md.infraID, plat.region, plat.zone, mp⟩ with
        | Except.error e =>
          ((none, false, some ("failed to generate machinesets: " ++ e)), true)
        | Except.ok sets => ((some sets, true, none), true)

/-- C10: whenever any nil-guard precondition fails — the cluster
deployment's metadata is nil, its PowerVS platform is nil, or the pool's
PowerVS platform is nil — `GenerateMachineSets` returns
`(nil, false, non-nil error)` with the corresponding message and without
invoking the installer (no cloud call). -/
theorem generateMachineSets_nil_guards
    (machineSets : InstallerMachineSetsInput → Except String (List MachineSet))
    (pp : Option PowerVSPlatform) (md : ClusterMetadata) (plat : PowerVSPlatform)
    (pool : MachinePool) :
    generateMachineSets machineSets ⟨⟨none, pp⟩⟩ pool =
      ((none, false, some "ClusterDeployment does not have cluster metadata"), false)
    ∧ generateMachineSets machineSets ⟨⟨some md, none⟩⟩ pool =
      ((none, false, some "ClusterDeployment is not for PowerVS"), false)
    ∧ generateMachineSets machineSets ⟨⟨some md, some plat⟩⟩ ⟨⟨none⟩⟩ =
      ((none, false, some "MachinePool is not for PowerVS"), false) := ⟨rfl, rfl, rfl⟩

end Hive
